import Mathlib

/-!
# QuantumAI front end: session layer (`auth.js`) and market simulator (`app.js`)

A shallow embedding of `AuthModule` and of the numeric helpers of `Utils` and
`Trading`, with the properties of the specification stated over it.

* `localStorage` is a map from keys to optional strings, threaded explicitly.
* The `Date` built-ins the code calls are fields of a `Host` record
  (`new Date(string)`, `toISOString`, the local UTC offset); results that hold
  for every host are stated for every `Host`, concrete runs use `isoHost`.
* `fetch` is an explicit parameter: the reply the remote API gives, or a
  transport failure.
* A page load runs over a `Page`: the URL `window.location.href` reads as,
  the store, and the alerts and navigations of the run in order.
* Numbers are the rationals that are binary64 doubles; each arithmetic
  operator rounds its exact result to the nearest double (`fl`), and
  `Math.random()` is an explicit parameter.
-/

namespace QuantumAI

/-! ## Browser-local storage -/

/-- The content of `localStorage`: `none` is what `getItem` reports as `null`. -/
abbrev Store := String → Option String

/-- `localStorage.getItem(key)`. -/
def getItem (s : Store) (key : String) : Option String := s key

/-- `localStorage.setItem(key, value)`. -/
def setItem (s : Store) (key value : String) : Store :=
  fun k => if k = key then some value else s k

/-- `localStorage.removeItem(key)`. -/
def removeItem (s : Store) (key : String) : Store :=
  fun k => if k = key then none else s k

/-- The store with no key at all. -/
def emptyStore : Store := fun _ => none

def TOKEN_KEY : String := "quantumai_token"
def PHONE_KEY : String := "quantumai_phone"
def USER_KEY : String := "quantumai_user"
def EXPIRY_KEY : String := "quantumai_expiry"

/-- JavaScript truthiness of a `getItem` result: `null` and `""` are falsy,
every other string is truthy. -/
def truthy : Option String → Bool
  | none => false
  | some v => v != ""

/-- What `setItem` stores for a value that may be `undefined`: the string
`"undefined"` when it is, the value itself otherwise. -/
def jsString : Option String → String
  | none => "undefined"
  | some v => v

/-! ## The host's `Date` -/

/-- The `Date` built-ins used by `auth.js`. Time values are milliseconds since
the epoch; `none` is the time value `NaN` of an invalid date. -/
structure Host where
  /-- Time value of `new Date(string)`. -/
  parse : String → Option Int
  /-- String written by `Date.prototype.toISOString`. -/
  toISOString : Int → String
  /-- ECMAScript `LocalTZA(t, isUTC)`: the local offset from UTC in force at
  `t`, where `t` is a UTC time value when the flag is set and a local time
  value otherwise. -/
  localTZA : Int → Bool → Int

def msPerDay : Int := 86400000

/-- ECMAScript `Day(t)`. -/
def day (t : Int) : Int := t / msPerDay

/-- ECMAScript `TimeWithinDay(t)`. -/
def timeWithinDay (t : Int) : Int := t % msPerDay

/-- ECMAScript `MakeDate(day, time)`. -/
def makeDate (d time : Int) : Int := d * msPerDay + time

/-- ECMAScript `LocalTime(t)`. -/
def localTime (h : Host) (t : Int) : Int := t + h.localTZA t true

/-- ECMAScript `UTC(t)`. -/
def utc (h : Host) (t : Int) : Int := t - h.localTZA t false

/-- The time value of a date `d` after `d.setDate(d.getDate() + n)`.
`setDate(dt)` rebuilds the local time from
`MakeDay(YearFromTime t, MonthFromTime t, dt)` and `TimeWithinDay t`; with
`dt = DateFromTime t + n` that day number is `Day t + n`, since `MakeDay`
counts `dt - 1` days from the first day of the month of `t`. -/
def setDatePlus (h : Host) (t n : Int) : Int :=
  let local_t := localTime h t
  utc h (makeDate (day local_t + n) (timeWithinDay local_t))

/-- The comparison `now > expiryDate` of two `Date` objects: both sides are
converted to their time values, and a comparison with `NaN` is false. -/
def dateGt (now : Int) (expiryDate : Option Int) : Bool :=
  match expiryDate with
  | none => false
  | some e => decide (now > e)

/-- Time value of `new Date(value)` for a `getItem` result: a string is
parsed, `null` converts to the number 0. -/
def newDate (h : Host) (value : Option String) : Option Int :=
  match value with
  | none => some 0
  | some str => h.parse str

/-! ## `AuthModule` -/

/-- `AuthModule.getToken()`. -/
def getToken (s : Store) : Option String := getItem s TOKEN_KEY

/-- `AuthModule.getPhone()`. -/
def getPhone (s : Store) : Option String := getItem s PHONE_KEY

/-- The four keys a session is stored under. -/
def sessionKeys : List String := [TOKEN_KEY, PHONE_KEY, USER_KEY, EXPIRY_KEY]

/-- `AuthModule.clearSession()`. -/
def clearSession (s : Store) : Store :=
  removeItem (removeItem (removeItem (removeItem s TOKEN_KEY) PHONE_KEY) USER_KEY) EXPIRY_KEY

/-- `AuthModule.isAuthenticated()` run at time `now` (the value of
`new Date()`): the returned boolean and the store it leaves. -/
def isAuthenticated (h : Host) (now : Int) (s : Store) : Bool × Store :=
  let token := getToken s
  let expiry := getItem s EXPIRY_KEY
  if !truthy token || !truthy expiry then
    (false, s)
  else
    let expiryDate := newDate h expiry
    if dateGt now expiryDate then
      (false, clearSession s)
    else
      (true, s)

/-- What an awaited `fetch` (with the decoding of its body) comes to: the
promise rejects or the body fails to decode, and control passes to the
`catch` block; or the decoded reply is received. -/
inductive Reply (α : Type) where
  | networkError : Reply α
  | received (a : α) : Reply α

/-- The JSON object a call returns to its caller. `success` is the truthiness
of the field; `token` is the field as `setItem` would convert it to a string
and `user` is the text `JSON.stringify` gives for the field, both `none` when
the field is missing. -/
structure ApiData where
  success : Bool
  message : Option String
  token : Option String
  user : Option String
deriving DecidableEq, Repr

/-- The object the `catch` blocks return. -/
def networkFailure : ApiData :=
  { success := false, message := some "Network error. Please try again.",
    token := none, user := none }

/-- `AuthModule.login(phone, password)`: `reply` is the outcome of the POST to
`/api/login`, `now` the value of `new Date()` read when the reply indicates
success. Returns the result handed to the caller and the store afterwards. -/
def login (h : Host) (phone _password : String) (reply : Reply ApiData) (now : Int)
    (s : Store) : ApiData × Store :=
  match reply with
  | Reply.networkError => (networkFailure, s)
  | Reply.received data =>
    if data.success then
      let s1 := setItem s TOKEN_KEY (jsString data.token)
      let s2 := setItem s1 PHONE_KEY phone
      let s3 := setItem s2 USER_KEY (jsString data.user)
      let expiry := setDatePlus h now 7
      (data, setItem s3 EXPIRY_KEY (h.toISOString expiry))
    else
      (data, s)

/-- What a run of `logout` did besides writing the store: whether the POST
to `/api/logout` was sent, and whether the `catch` block ran. -/
structure LogoutTrace where
  notified : Bool
  caught : Bool
deriving DecidableEq, Repr

/-- `AuthModule.logout()`: `reply` is the outcome the POST to `/api/logout`
has if it is sent. The `finally` block runs after either exit of `try`. -/
def logout (reply : Reply Unit) (s : Store) : LogoutTrace × Store :=
  let token := getToken s
  let trace : LogoutTrace :=
    if truthy token then
      match reply with
      | Reply.networkError => { notified := true, caught := true }
      | Reply.received _ => { notified := true, caught := false }
    else
      { notified := false, caught := false }
  (trace, clearSession s)

/-- The reply to `GET /api/user-data`: the HTTP status and the decoded body
(`none` when `response.json()` throws). -/
structure UserDataResponse where
  status : Nat
  body : Option String

/-- `AuthModule.getUserData()`: the returned profile (`none` is `null`) and
the store afterwards. -/
def getUserData (reply : Reply UserDataResponse) (s : Store) : Option String × Store :=
  let token := getToken s
  if !truthy token then
    (none, s)
  else
    match reply with
    | Reply.networkError => (none, s)
    | Reply.received response =>
      if response.status = 401 then
        (none, clearSession s)
      else
        (response.body, s)

/-! ## Page load: `init`, `checkSessionExpiry`, `redirectToLogin` -/

/-- Whether the characters `cs` begin with the characters `sub`. -/
def startsWith : List Char → List Char → Bool
  | _, [] => true
  | [], _ :: _ => false
  | c :: cs, p :: ps => c == p && startsWith cs ps

/-- Whether the characters `sub` occur in `cs` as a contiguous run. -/
def includesChars : List Char → List Char → Bool
  | [], sub => startsWith [] sub
  | c :: cs, sub => startsWith (c :: cs) sub || includesChars cs sub

/-- `String.prototype.includes`. -/
def includes (str sub : String) : Bool := includesChars str.data sub.data

/-- What a run shows to the user or asks of the browser, besides writing the
store. -/
inductive Effect where
  /-- A call `alert(message)`. -/
  | alert (message : String) : Effect
  /-- An assignment `window.location.href = url`, which starts a navigation. -/
  | navigate (url : String) : Effect
deriving DecidableEq, Repr

/-- The page during one synchronous run: the URL `window.location.href` reads
as, the store, and the effects so far, oldest first. Assigning
`window.location.href` starts a navigation that completes after the run, so
the URL read back during the run is still that of the current document. -/
structure Page where
  href : String
  store : Store
  effects : List Effect

/-- `AuthModule.redirectToLogin()`. -/
def redirectToLogin (page : Page) : Page :=
  if !includes page.href "login.html" && !includes page.href "register.html"
      && !includes page.href "index.html" then
    { page with effects := page.effects ++ [Effect.navigate "login.html"] }
  else
    page

/-- `AuthModule.checkSessionExpiry()` run at time `now`. -/
def checkSessionExpiry (h : Host) (now : Int) (page : Page) : Page :=
  let expiry := getItem page.store EXPIRY_KEY
  if truthy expiry then
    let expiryDate := newDate h expiry
    if dateGt now expiryDate then
      let cleared : Page := { page with store := clearSession page.store }
      if includes cleared.href "dashboard.html" then
        redirectToLogin { cleared with effects := cleared.effects ++
          [Effect.alert "Your session has expired. Please login again."] }
      else
        cleared
    else
      page
  else
    page

/-- `AuthModule.init()`: `now1` is the time read by `isAuthenticated()`,
`now2` the time read by `checkSessionExpiry()`. -/
def init (h : Host) (now1 now2 : Int) (page : Page) : Page :=
  let (authenticated, store1) := isAuthenticated h now1 page.store
  let page1 : Page := { page with store := store1 }
  let page2 :=
    if !authenticated &&
        (includes page1.href "dashboard.html" || includes page1.href "profile.html") then
      redirectToLogin page1
    else
      page1
  checkSessionExpiry h now2 page2

/-! ## A concrete host: ISO-8601 strings and fixed or changing UTC offsets -/

/-- Days from 1970-01-01 to the given date of the proleptic Gregorian
calendar. -/
def daysFromCivil (y m d : Int) : Int :=
  let y1 := if m ≤ 2 then y - 1 else y
  let era := y1 / 400
  let yoe := y1 - era * 400
  let mp := if m > 2 then m - 3 else m + 9
  let doy := (153 * mp + 2) / 5 + d - 1
  let doe := yoe * 365 + yoe / 4 - yoe / 100 + doy
  era * 146097 + doe - 719468

/-- Year, month and day of month of a day number counted from 1970-01-01. -/
def civilFromDays (z : Int) : Int × Int × Int :=
  let z1 := z + 719468
  let era := z1 / 146097
  let doe := z1 - era * 146097
  let yoe := (doe - doe / 1460 + doe / 36524 - doe / 146096) / 365
  let doy := doe - (365 * yoe + yoe / 4 - yoe / 100)
  let mp := (5 * doy + 2) / 153
  let d := doy - (153 * mp + 2) / 5 + 1
  let m := if mp < 10 then mp + 3 else mp - 9
  let y := yoe + era * 400
  (if m ≤ 2 then y + 1 else y, m, d)

def digitChar (n : Nat) : Char := Char.ofNat (48 + n % 10)

/-- The last `width` decimal digits of `n`, zero padded. -/
def padDigits : Nat → Nat → List Char
  | 0, _ => []
  | width + 1, n => padDigits width (n / 10) ++ [digitChar n]

/-- The string `toISOString` writes for a time value:
`YYYY-MM-DDTHH:mm:ss.sssZ`, the year written with a sign and six digits when
it is outside 0..9999. -/
def isoString (t : Int) : String :=
  let (y, m, d) := civilFromDays (day t)
  let ms := timeWithinDay t
  let year : List Char :=
    if 0 ≤ y ∧ y ≤ 9999 then padDigits 4 y.toNat
    else (if y < 0 then '-' else '+') :: padDigits 6 y.natAbs
  String.mk (year ++ '-' :: padDigits 2 m.toNat ++ '-' :: padDigits 2 d.toNat
    ++ 'T' :: padDigits 2 (ms / 3600000).toNat ++ ':' :: padDigits 2 (ms / 60000 % 60).toNat
    ++ ':' :: padDigits 2 (ms / 1000 % 60).toNat ++ '.' :: padDigits 3 (ms % 1000).toNat
    ++ ['Z'])

def digitVal (c : Char) : Option Nat :=
  if 48 ≤ c.toNat ∧ c.toNat ≤ 57 then some (c.toNat - 48) else none

/-- The number a list of decimal digits writes; `none` when a character is
not a digit. -/
def readDigits (cs : List Char) : Option Nat :=
  cs.foldl (fun acc c => acc.bind fun n => (digitVal c).map fun v => 10 * n + v) (some 0)

def isLeapYear (y : Int) : Bool := (y % 4 == 0 && y % 100 != 0) || y % 400 == 0

def daysInMonth (y : Int) (m : Nat) : Nat :=
  if m = 2 then (if isLeapYear y then 29 else 28)
  else if m = 4 ∨ m = 6 ∨ m = 9 ∨ m = 11 then 30 else 31

/-- Reads `-MM-DDTHH:mm:ss.sssZ` after a year already read. -/
def isoParseRest (y : Int) (cs : List Char) : Option Int :=
  if cs.length = 20 ∧ cs.get? 0 = some '-' ∧ cs.get? 3 = some '-' ∧ cs.get? 6 = some 'T'
      ∧ cs.get? 9 = some ':' ∧ cs.get? 12 = some ':' ∧ cs.get? 15 = some '.'
      ∧ cs.get? 19 = some 'Z' then
    (readDigits ((cs.drop 1).take 2)).bind fun m =>
    (readDigits ((cs.drop 4).take 2)).bind fun d =>
    (readDigits ((cs.drop 7).take 2)).bind fun hh =>
    (readDigits ((cs.drop 10).take 2)).bind fun mm =>
    (readDigits ((cs.drop 13).take 2)).bind fun ss =>
    (readDigits ((cs.drop 16).take 3)).bind fun ms =>
    if 1 ≤ m ∧ m ≤ 12 ∧ 1 ≤ d ∧ d ≤ daysInMonth y m ∧ hh ≤ 23 ∧ mm ≤ 59 ∧ ss ≤ 59 then
      some (makeDate (daysFromCivil y m d) (((hh * 60 + mm) * 60 + ss) * 1000 + ms : Nat))
    else none
  else none

/-- Time value of `new Date(string)` for a string in the format `toISOString`
writes. Every other string is read as an invalid date: engines recognise
further formats, and no statement below depends on how they read them. -/
def isoParse (str : String) : Option Int :=
  match str.data with
  | '+' :: cs => (readDigits (cs.take 6)).bind fun y => isoParseRest y (cs.drop 6)
  | '-' :: cs =>
    (readDigits (cs.take 6)).bind fun y =>
      if y = 0 then none else isoParseRest (-(y : Int)) (cs.drop 6)
  | cs => (readDigits (cs.take 4)).bind fun y => isoParseRest y (cs.drop 4)

/-- A host whose local time is UTC plus a constant number of milliseconds. -/
def isoHost (offset : Int) : Host :=
  { parse := isoParse, toISOString := isoString, localTZA := fun _ _ => offset }

/-- The instant 2026-03-29T01:00:00Z, when central European clocks go from
UTC+1 to UTC+2. -/
def cetSpring2026 : Int := 1774746000000

/-- A host in the central European zone around the daylight-saving change of
spring 2026: UTC+1 before `cetSpring2026`, UTC+2 from then on. -/
def cetHost : Host :=
  { parse := isoParse, toISOString := isoString,
    localTZA := fun t isUTC =>
      if isUTC then (if t < cetSpring2026 then 3600000 else 7200000)
      else (if t < cetSpring2026 + 3600000 then 3600000 else 7200000) }

/-- The store holding exactly the given values under the four session keys. -/
def sessionStore (token phone user expiry : Option String) : Store :=
  fun k =>
    if k = TOKEN_KEY then token
    else if k = PHONE_KEY then phone
    else if k = USER_KEY then user
    else if k = EXPIRY_KEY then expiry
    else none

/-- The instant 2026-11-05T12:00:00Z, the current time of the concrete runs. -/
def nov5 : Int := 1793880000000

/-- An empty string stored as token, with an expiry a week after `nov5`. -/
def emptyTokenStore : Store :=
  sessionStore (some "") none none (some "2026-11-12T12:00:00.000Z")

/-- A token stored with an expiry string that is no date. -/
def garbageExpiryStore : Store := sessionStore (some "abc") none none (some "garbage")

/-- A session whose expiry, 2026-11-01, lies before `nov5`. -/
def expiredStore : Store :=
  sessionStore (some "abc") (some "671234567") none (some "2026-11-01T00:00:00.000Z")

/-- A phone and an expiry before `nov5` stored without a token. -/
def noTokenStore : Store :=
  sessionStore none (some "671234567") none (some "2026-11-01T00:00:00.000Z")

/-- A token and a phone stored without an expiry. -/
def tokenPhoneStore : Store := sessionStore (some "abc") (some "671234567") none none

/-- A freshly loaded dashboard view over the given store. -/
def dashboardPage (s : Store) : Page :=
  { href := "https://quantumai.example/dashboard.html", store := s, effects := [] }

/-- The reply of the specification's login scenario: `success` set, the given
token and an empty user object. -/
def scenarioData (token : String) : ApiData :=
  { success := true, message := none, token := some token, user := some "\x7b\x7d" }

/-! ## Numbers: binary64 arithmetic -/

/-- Nearest integer, a tie going to the even neighbour. -/
def roundHalfEven (x : ℚ) : ℤ :=
  if x - ⌊x⌋ < 1 / 2 then ⌊x⌋
  else if 1 / 2 < x - ⌊x⌋ then ⌊x⌋ + 1
  else if ⌊x⌋ % 2 = 0 then ⌊x⌋ else ⌊x⌋ + 1

/-- Exponent of the binade of `x` in binary64: the integer `e` with
`2 ^ e ≤ |x| < 2 ^ (e + 1)`, and -1022 for the subnormal numbers below. -/
def binadeExp (x : ℚ) : ℤ := max (Int.log 2 |x|) (-1022)

/-- Spacing of the doubles in the binade of `x`: 52 fraction bits. -/
def ulp (x : ℚ) : ℚ := 2 ^ (binadeExp x - 52)

/-- The Number value for `x`: the double nearest to the real number `x`, a
tie going to the even significand. Every arithmetic operator of JavaScript
returns the Number value for the exact result. Overflow to an infinity is not
modelled: the only number of this program that is not bounded by a constant
is the balance, and its product with the percentage is smaller than it. -/
def fl (x : ℚ) : ℚ := roundHalfEven (x / ulp x) * ulp x

/-- The number `a + b` of JavaScript. -/
def fadd (a b : ℚ) : ℚ := fl (a + b)

/-- The number `a - b` of JavaScript. -/
def fsub (a b : ℚ) : ℚ := fl (a - b)

/-- The number `a * b` of JavaScript. -/
def fmul (a b : ℚ) : ℚ := fl (a * b)

/-- The number `a / b` of JavaScript, for `b` other than zero. -/
def fdiv (a b : ℚ) : ℚ := fl (a / b)

/-- `Math.round(x)`: the nearest integer, a tie going up. -/
def jsRound (x : ℚ) : ℤ := ⌊x + 1 / 2⌋

/-- `Math.floor(x)`. -/
def jsFloor (x : ℚ) : ℤ := ⌊x⌋

/-- What `Math.random()` may return: a double that is at least 0 and less
than 1. -/
def isRandomDraw (r : ℚ) : Prop := fl r = r ∧ 0 ≤ r ∧ r < 1

instance (r : ℚ) : Decidable (isRandomDraw r) := by
  unfold isRandomDraw
  infer_instance

/-! ## `Utils` and `Trading` of `app.js` -/

/-- `Utils.calculateProfit(balance)`, `r` being the value of `Math.random()`. -/
def calculateProfit (balance r : ℚ) : ℤ :=
  let minProfit := fl 0.005
  let maxProfit := fl 0.035
  let profitPercentage := fadd minProfit (fmul r (fsub maxProfit minProfit))
  jsRound (fmul balance profitPercentage)

/-- The array `pairs` of `getRandomPair`. -/
def pairs : List String := ["BTC/USD", "EUR/USD", "GOLD"]

/-- `Utils.getRandomPair()`, `r` being the value of `Math.random()`; `none`
is `undefined`, the element at an index outside the array. -/
def getRandomPair (r : ℚ) : Option String :=
  let index := jsFloor (fmul r pairs.length)
  if 0 ≤ index then pairs.get? index.toNat else none

/-- The object `bases` of `getRandomEntryPrice`; `none` is `undefined`. -/
def bases (pair : String) : Option ℚ :=
  if pair = "BTC/USD" then some 60000
  else if pair = "EUR/USD" then some (fl 1.08)
  else if pair = "GOLD" then some 2300
  else none

/-- `Utils.getRandomEntryPrice()`: `r1` is the draw of the inner
`getRandomPair()`, `r2` the draw of the variation; `none` is `NaN`, the
result for an undefined base. -/
def getRandomEntryPrice (r1 r2 : ℚ) : Option ℚ :=
  match (getRandomPair r1).bind bases with
  | none => none
  | some base =>
    let variation := fmul (fmul base (fl 0.02)) (fsub r2 (fl 0.5))
    some (fdiv (jsRound (fmul (fadd base variation) 100)) 100)

/-- The numbers of the record `generateFakeTrade` returns, before they are
formatted for display. -/
structure FakeTrade where
  pair : String
  entry : ℚ
  exit : ℚ
  profit : ℚ
  /-- The local `profitPercent`, a fraction. -/
  profitPercent : ℚ
  /-- The number `profitPercent * 100` handed to `toFixed(2)`. -/
  percent : ℚ
  status : String
  result : String

/-- `Trading.generateFakeTrade()`: `r1` is the draw of `getRandomPair()`,
`r2` and `r3` are the draws of `getRandomEntryPrice()`, `r4` is the draw of
the profit percentage. The identifier and the timestamp are left out; `none`
stands for a record built from an undefined pair or a `NaN` price. -/
def generateFakeTrade (r1 r2 r3 r4 : ℚ) : Option FakeTrade :=
  match getRandomPair r1, getRandomEntryPrice r2 r3 with
  | some pair, some entry =>
    let profitPercent := fadd (fl 0.005) (fmul r4 (fl 0.03))
    let exit := fmul entry (fadd 1 profitPercent)
    let profit := fsub exit entry
    some { pair := pair, entry := entry, exit := exit, profit := profit,
           profitPercent := profitPercent, percent := fmul profitPercent 100,
           status := "completed", result := "win" }
  | _, _ => none

/-! ## Properties of the session layer -/

theorem clearSession_absent (s : Store) :
    ∀ k ∈ sessionKeys, getItem (clearSession s) k = none := by
  intro k hk
  simp only [sessionKeys, List.mem_cons, List.mem_singleton, List.not_mem_nil, or_false] at hk
  rcases hk with rfl | rfl | rfl | rfl <;>
    simp [getItem, clearSession, removeItem, TOKEN_KEY, PHONE_KEY, USER_KEY, EXPIRY_KEY]

theorem dateGt_eq_true_iff (now : Int) (d : Option Int) :
    dateGt now d = true ↔ ∃ T, d = some T ∧ T < now := by
  cases d <;> simp [dateGt]

/-- The ECMAScript day arithmetic of `setDate(getDate() + n)`: the local time
moves by `n` whole days. -/
theorem makeDate_day_add (t n : Int) :
    makeDate (day t + n) (timeWithinDay t) = t + n * msPerDay := by
  unfold makeDate day timeWithinDay
  have h := Int.ediv_add_emod t msPerDay
  linarith [mul_comm msPerDay (t / msPerDay)]

/-- The time value after `setDate(getDate() + n)`: `n` days later, shifted by
the difference of the local offsets at the two ends. -/
theorem setDatePlus_value (h : Host) (t n : Int) :
    setDatePlus h t n = t + n * msPerDay + h.localTZA t true
      - h.localTZA (localTime h t + n * msPerDay) false := by
  simp only [setDatePlus, makeDate_day_add, utc]
  simp only [localTime]
  ring

/-- Where the local offset is the same at the login instant and at the local
time `n` days later, `setDate(getDate() + n)` adds `n` times 24 hours. -/
theorem setDatePlus_eq (h : Host) (t n : Int)
    (htz : h.localTZA (localTime h t + n * msPerDay) false = h.localTZA t true) :
    setDatePlus h t n = t + n * msPerDay := by
  simp only [setDatePlus, makeDate_day_add, utc, htz]
  simp only [localTime]
  ring

/-- A non-empty token and a non-empty expiry that does not parse to a time
before `now` make `isAuthenticated()` return true. -/
theorem isAuthenticated_of_valid (h : Host) (now : Int) (s : Store) (tok e : String)
    (htok : getItem s TOKEN_KEY = some tok) (htokne : tok ≠ "")
    (hexp : getItem s EXPIRY_KEY = some e) (hene : e ≠ "")
    (hnot : ∀ T, h.parse e = some T → now ≤ T) :
    (isAuthenticated h now s).1 = true := by
  have hgt : dateGt now (newDate h (some e)) = false := by
    cases hp : h.parse e with
    | none => simp [newDate, dateGt, hp]
    | some T => simpa [newDate, dateGt, hp] using hnot T hp
  simp [isAuthenticated, getToken, htok, hexp, truthy, htokne, hene, hgt]

/-- C1 (as amended): `isAuthenticated()` returns true exactly when a non-empty
token is stored, a non-empty expiry is stored, and the stored expiry does not
parse to a time strictly before the current time; an expiry string that does
not parse to a date at all therefore counts as not expired. -/
theorem isAuthenticated_true_iff (h : Host) (now : Int) (s : Store) :
    (isAuthenticated h now s).1 = true ↔
      (∃ tok, getItem s TOKEN_KEY = some tok ∧ tok ≠ "") ∧
      (∃ e, getItem s EXPIRY_KEY = some e ∧ e ≠ "" ∧ ∀ T, h.parse e = some T → now ≤ T) := by
  unfold isAuthenticated
  simp only [getToken]
  cases htok : getItem s TOKEN_KEY with
  | none => simp [truthy]
  | some tok =>
    cases hexp : getItem s EXPIRY_KEY with
    | none => simp [truthy]
    | some e =>
      by_cases h1 : tok = ""
      · simp [truthy, h1]
      · by_cases h2 : e = ""
        · simp [truthy, h2]
        · cases hp : h.parse e with
          | none => simp [truthy, h1, h2, newDate, dateGt, hp]
          | some T =>
            by_cases h3 : T < now
            · simp [truthy, h1, h2, newDate, dateGt, hp, h3]
            · simp [truthy, h1, h2, newDate, dateGt, hp, h3]
              omega

/-- C1, as stated, fails on two stores read at 2026-11-05T12:00:00Z. With an
empty string stored as token and an expiry a week ahead, a token and a future
expiry are stored and the result is false. With token `abc` and an expiry
string that is no date, no time is stored that the current time could be
compared with, and the result is true. -/
theorem isAuthenticated_iff_stored_counterexample :
    (¬ ((isAuthenticated (isoHost 0) nov5 emptyTokenStore).1 = true ↔
        (∃ tok, getItem emptyTokenStore TOKEN_KEY = some tok) ∧
        (∃ e T, getItem emptyTokenStore EXPIRY_KEY = some e ∧
          (isoHost 0).parse e = some T ∧ nov5 ≤ T))) ∧
    (¬ ((isAuthenticated (isoHost 0) nov5 garbageExpiryStore).1 = true ↔
        (∃ tok, getItem garbageExpiryStore TOKEN_KEY = some tok) ∧
        (∃ e T, getItem garbageExpiryStore EXPIRY_KEY = some e ∧
          (isoHost 0).parse e = some T ∧ nov5 ≤ T))) := by
  constructor
  · intro hiff
    have hfalse : (isAuthenticated (isoHost 0) nov5 emptyTokenStore).1 = false := by decide
    have htrue := hiff.mpr ⟨⟨"", by decide⟩,
      ⟨"2026-11-12T12:00:00.000Z", 1794484800000, by decide, by decide, by decide⟩⟩
    rw [hfalse] at htrue
    exact Bool.false_ne_true htrue
  · intro hiff
    have htrue : (isAuthenticated (isoHost 0) nov5 garbageExpiryStore).1 = true := by decide
    obtain ⟨_, e, T, he, hT, _⟩ := hiff.mp htrue
    have hstored : getItem garbageExpiryStore EXPIRY_KEY = some "garbage" := by decide
    rw [hstored] at he
    have he2 : e = "garbage" := (Option.some.inj he).symm
    subst he2
    have hnone : (isoHost 0).parse "garbage" = none := by decide
    rw [hnone] at hT
    exact Option.noConfusion hT

/-- C2 (as amended): for a stored session whose token is not the empty string
and whose expiry, a non-empty string, parses to a time strictly before the
current time, `isAuthenticated()` returns false and leaves none of the four
session keys in the store. -/
theorem isAuthenticated_expired (h : Host) (now : Int) (s : Store) (tok e : String) (T : Int)
    (htok : getItem s TOKEN_KEY = some tok) (htokne : tok ≠ "")
    (hexp : getItem s EXPIRY_KEY = some e) (hene : e ≠ "")
    (hparse : h.parse e = some T) (hpast : T < now) :
    (isAuthenticated h now s).1 = false ∧
      ∀ k ∈ sessionKeys, getItem (isAuthenticated h now s).2 k = none := by
  have hrun : isAuthenticated h now s = (false, clearSession s) := by
    simp [isAuthenticated, getToken, htok, hexp, truthy, htokne, hene, newDate, hparse,
      dateGt, hpast]
  rw [hrun]
  exact ⟨rfl, clearSession_absent s⟩

/-- C2 at work: a session stored with expiry 2026-11-01, read on 2026-11-05. -/
theorem isAuthenticated_expired_witness :
    (isAuthenticated (isoHost 0) nov5 expiredStore).1 = false ∧
      ∀ k ∈ sessionKeys, getItem (isAuthenticated (isoHost 0) nov5 expiredStore).2 k = none :=
  isAuthenticated_expired (isoHost 0) nov5 expiredStore "abc" "2026-11-01T00:00:00.000Z"
    1793491200000 (by decide) (by decide) (by decide) (by decide) (by decide) (by decide)


/-- C2, as stated, fails on the session `login` stores for a reply with
`success` set and the empty string as token, read eight days after the login
of 2026-11-05: the expiry 2026-11-12 lies strictly before the current time,
`isAuthenticated()` returns false through the guard on the token, and the four
session keys are still stored afterwards. -/
theorem isAuthenticated_expired_counterexample :
    getItem (login (isoHost 0) "671234567" "x" (Reply.received (scenarioData ""))
        nov5 emptyStore).2 EXPIRY_KEY = some "2026-11-12T12:00:00.000Z" ∧
    (isoHost 0).parse "2026-11-12T12:00:00.000Z" = some (nov5 + 7 * msPerDay) ∧
    nov5 + 7 * msPerDay < nov5 + 8 * msPerDay ∧
    (isAuthenticated (isoHost 0) (nov5 + 8 * msPerDay)
      (login (isoHost 0) "671234567" "x" (Reply.received (scenarioData ""))
        nov5 emptyStore).2).1 = false ∧
    getItem (isAuthenticated (isoHost 0) (nov5 + 8 * msPerDay)
      (login (isoHost 0) "671234567" "x" (Reply.received (scenarioData ""))
        nov5 emptyStore).2).2 TOKEN_KEY = some "" ∧
    getItem (isAuthenticated (isoHost 0) (nov5 + 8 * msPerDay)
      (login (isoHost 0) "671234567" "x" (Reply.received (scenarioData ""))
        nov5 emptyStore).2).2 PHONE_KEY = some "671234567" ∧
    getItem (isAuthenticated (isoHost 0) (nov5 + 8 * msPerDay)
      (login (isoHost 0) "671234567" "x" (Reply.received (scenarioData ""))
        nov5 emptyStore).2).2 USER_KEY = some "\x7b\x7d" ∧
    getItem (isAuthenticated (isoHost 0) (nov5 + 8 * msPerDay)
      (login (isoHost 0) "671234567" "x" (Reply.received (scenarioData ""))
        nov5 emptyStore).2).2 EXPIRY_KEY = some "2026-11-12T12:00:00.000Z" := by
  decide
/-- C3 (as amended): when `isAuthenticated()` returns false, either the token
and the expiry are both stored and non-empty and the expiry has passed, and
then none of the four session keys is left in the store; or the token or the
expiry is missing or empty, and then the store is left exactly as it was. -/
theorem isAuthenticated_false_store (h : Host) (now : Int) (s : Store)
    (hfalse : (isAuthenticated h now s).1 = false) :
    (truthy (getToken s) = true ∧ truthy (getItem s EXPIRY_KEY) = true ∧
        (∃ T, newDate h (getItem s EXPIRY_KEY) = some T ∧ T < now) ∧
        ∀ k ∈ sessionKeys, getItem (isAuthenticated h now s).2 k = none) ∨
    ((truthy (getToken s) = false ∨ truthy (getItem s EXPIRY_KEY) = false) ∧
        (isAuthenticated h now s).2 = s) := by
  unfold isAuthenticated at hfalse ⊢
  by_cases h1 : truthy (getToken s) = true
  · by_cases h2 : truthy (getItem s EXPIRY_KEY) = true
    · by_cases h3 : dateGt now (newDate h (getItem s EXPIRY_KEY)) = true
      · left
        simp only [h1, h2, h3, Bool.not_true, Bool.or_self, Bool.false_eq_true, if_false,
          if_true]
        exact ⟨trivial, trivial, (dateGt_eq_true_iff _ _).mp h3, clearSession_absent s⟩
      · simp [h1, h2, h3] at hfalse
    · right
      simp only [Bool.not_eq_true] at h2
      simp [h1, h2]
  · right
    simp only [Bool.not_eq_true] at h1
    simp [h1]

/-- C3 at work, on the store of the counterexample: the token is missing, the
result is false and the store is unchanged. -/
theorem isAuthenticated_false_store_witness :
    (isAuthenticated (isoHost 0) nov5 noTokenStore).1 = false ∧
      (isAuthenticated (isoHost 0) nov5 noTokenStore).2 = noTokenStore := by
  have hfalse : (isAuthenticated (isoHost 0) nov5 noTokenStore).1 = false := by decide
  refine ⟨hfalse, ?_⟩
  rcases isAuthenticated_false_store (isoHost 0) nov5 noTokenStore hfalse with hcl | hkeep
  · exact absurd hcl.1 (by decide)
  · exact hkeep.2

/-- C3, as stated, fails on a store holding a phone and an expired expiry but
no token: `isAuthenticated()` returns false and both keys are still stored
afterwards. -/
theorem isAuthenticated_false_clears_counterexample :
    (isAuthenticated (isoHost 0) nov5 noTokenStore).1 = false ∧
      getItem (isAuthenticated (isoHost 0) nov5 noTokenStore).2 PHONE_KEY
        = some "671234567" ∧
      getItem (isAuthenticated (isoHost 0) nov5 noTokenStore).2 EXPIRY_KEY
        = some "2026-11-01T00:00:00.000Z" := by
  decide

/-- C4 (as amended): after a login whose reply has `success` set, the store
holds the reply's token, the phone argument, the serialized user and, as
expiry, the login time moved seven calendar days ahead in local time. Where
the local UTC offset is the same at both ends, that expiry is exactly the
login time plus 7 times 24 hours. If the token is not the empty string,
`isAuthenticated()` called at the login time returns true, on a host that
keeps to ECMAScript: its UTC offsets are within 24 hours, and it reads the ISO
string it writes back as the same time. -/
theorem login_success (h : Host) (phone password : String) (data : ApiData) (now : Int)
    (s : Store) (hsuccess : data.success = true) :
    (login h phone password (Reply.received data) now s).1 = data ∧
    getItem (login h phone password (Reply.received data) now s).2 TOKEN_KEY
      = some (jsString data.token) ∧
    getItem (login h phone password (Reply.received data) now s).2 PHONE_KEY = some phone ∧
    getItem (login h phone password (Reply.received data) now s).2 USER_KEY
      = some (jsString data.user) ∧
    getItem (login h phone password (Reply.received data) now s).2 EXPIRY_KEY
      = some (h.toISOString (setDatePlus h now 7)) ∧
    (h.localTZA (localTime h now + 7 * msPerDay) false = h.localTZA now true →
      setDatePlus h now 7 = now + 7 * msPerDay) ∧
    (data.token ≠ some "" →
      |h.localTZA now true| < msPerDay →
      |h.localTZA (localTime h now + 7 * msPerDay) false| < msPerDay →
      h.toISOString (setDatePlus h now 7) ≠ "" →
      h.parse (h.toISOString (setDatePlus h now 7)) = some (setDatePlus h now 7) →
      (isAuthenticated h now (login h phone password (Reply.received data) now s).2).1
        = true) := by
  have hrun : login h phone password (Reply.received data) now s =
      (data, setItem (setItem (setItem (setItem s TOKEN_KEY (jsString data.token))
        PHONE_KEY phone) USER_KEY (jsString data.user)) EXPIRY_KEY
        (h.toISOString (setDatePlus h now 7))) := by
    simp [login, hsuccess]
  have htoken : getItem (login h phone password (Reply.received data) now s).2 TOKEN_KEY
      = some (jsString data.token) := by
    rw [hrun]; simp [getItem, setItem, TOKEN_KEY, PHONE_KEY, USER_KEY, EXPIRY_KEY]
  have hexpiry : getItem (login h phone password (Reply.received data) now s).2 EXPIRY_KEY
      = some (h.toISOString (setDatePlus h now 7)) := by
    rw [hrun]; simp [getItem, setItem]
  refine ⟨by rw [hrun], htoken, ?_, ?_, hexpiry, ?_, ?_⟩
  · rw [hrun]; simp [getItem, setItem, TOKEN_KEY, PHONE_KEY, USER_KEY, EXPIRY_KEY]
  · rw [hrun]; simp [getItem, setItem, TOKEN_KEY, PHONE_KEY, USER_KEY, EXPIRY_KEY]
  · exact setDatePlus_eq h now 7
  · intro htok hoff1 hoff2 hne hread
    refine isAuthenticated_of_valid h now _ (jsString data.token)
      (h.toISOString (setDatePlus h now 7)) htoken ?_ hexpiry hne ?_
    · cases hd : data.token with
      | none => simp [jsString]
      | some v =>
        intro hv
        apply htok
        rw [hd]
        simpa [jsString] using hv
    · intro T hT
      rw [hread] at hT
      have hT2 : setDatePlus h now 7 = T := Option.some.inj hT
      have hval := setDatePlus_value h now 7
      have h1 := abs_lt.mp hoff1
      have h2 := abs_lt.mp hoff2
      have hday : msPerDay = 86400000 := rfl
      omega
/-- C4 at work. The login of the specification's scenario on 2026-11-05 at
12:00 UTC, on a host one hour ahead of UTC: the expiry is the login time plus
7 times 24 hours, and `isAuthenticated()` returns true. The login of
2026-03-25 on the central European host, whose expiry is an hour short of
that: `isAuthenticated()` returns true as well. -/
theorem login_success_witness :
    getItem (login (isoHost 3600000) "671234567" "x" (Reply.received (scenarioData "abc"))
        nov5 emptyStore).2 EXPIRY_KEY = some "2026-11-12T12:00:00.000Z" ∧
    (isAuthenticated (isoHost 3600000) nov5
      (login (isoHost 3600000) "671234567" "x" (Reply.received (scenarioData "abc"))
        nov5 emptyStore).2).1 = true ∧
    (isAuthenticated cetHost 1774440000000
      (login cetHost "671234567" "x" (Reply.received (scenarioData "abc"))
        1774440000000 emptyStore).2).1 = true := by
  obtain ⟨_, _, _, _, hexpiry, hplus, hauth⟩ :=
    login_success (isoHost 3600000) "671234567" "x" (scenarioData "abc") nov5 emptyStore rfl
  obtain ⟨_, _, _, _, _, _, hauthCet⟩ :=
    login_success cetHost "671234567" "x" (scenarioData "abc") 1774440000000 emptyStore rfl
  refine ⟨?_, hauth (by decide) (by decide) (by decide) (by decide) (by decide),
    hauthCet (by decide) (by decide) (by decide) (by decide) (by decide)⟩
  rw [hexpiry, hplus rfl]
  decide
/-- C4, as stated, fails in two ways. A reply with `success` set and the empty
string as token is stored as sent, and `isAuthenticated()` called at the login
time returns false. On a central European host, a login on 2026-03-25 at 12:00
UTC, four days before clocks go forward, stores the expiry 2026-04-01 at 11:00
UTC: seven days less one hour after the login time. -/
theorem login_success_counterexample :
    (isAuthenticated (isoHost 0) nov5
      (login (isoHost 0) "671234567" "x" (Reply.received (scenarioData ""))
        nov5 emptyStore).2).1 = false ∧
    getItem (login cetHost "671234567" "x" (Reply.received (scenarioData "abc"))
        1774440000000 emptyStore).2 EXPIRY_KEY = some "2026-04-01T11:00:00.000Z" ∧
    cetHost.parse "2026-04-01T11:00:00.000Z" = some (1774440000000 + 7 * msPerDay - 3600000) ∧
    cetHost.toISOString (1774440000000 + 7 * msPerDay) = "2026-04-01T12:00:00.000Z" := by
  decide

/-- C5: a login that ends without a reply that has `success` set (a reply
with `success` false, or a transport failure) leaves the store as it was; on a
transport failure the result is the local failure with the network-error
message. -/
theorem login_failure_keeps_store (h : Host) (phone password : String) (reply : Reply ApiData)
    (now : Int) (s : Store)
    (hfail : ∀ data, reply = Reply.received data → data.success = false) :
    (login h phone password reply now s).2 = s ∧
    (reply = Reply.networkError →
      (login h phone password reply now s).1 =
        { success := false, message := some "Network error. Please try again.",
          token := none, user := none }) := by
  cases reply with
  | networkError => exact ⟨rfl, fun _ => rfl⟩
  | received data =>
    have hd := hfail data rfl
    refine ⟨by simp [login, hd], fun hne => ?_⟩
    cases hne

/-- C5 at work: a transport failure while a token and a phone are stored. -/
theorem login_failure_keeps_store_witness :
    (login (isoHost 0) "671234567" "x" Reply.networkError nov5 tokenPhoneStore).2
      = tokenPhoneStore ∧
    (login (isoHost 0) "671234567" "x" Reply.networkError nov5 tokenPhoneStore).1 =
      { success := false, message := some "Network error. Please try again.",
        token := none, user := none } :=
  ⟨(login_failure_keeps_store (isoHost 0) "671234567" "x" Reply.networkError nov5
      tokenPhoneStore (fun _ hd => by cases hd)).1,
   (login_failure_keeps_store (isoHost 0) "671234567" "x" Reply.networkError nov5
      tokenPhoneStore (fun _ hd => by cases hd)).2 rfl⟩

/-- C6: whatever the store held and whatever became of the remote
notification (not sent, sent and answered, sent and failed), none of the four
session keys is stored after `logout()`. -/
theorem logout_clears_session (reply : Reply Unit) (s : Store) :
    getItem (logout reply s).2 TOKEN_KEY = none ∧ getItem (logout reply s).2 PHONE_KEY = none ∧
    getItem (logout reply s).2 USER_KEY = none ∧ getItem (logout reply s).2 EXPIRY_KEY = none := by
  have hrun : (logout reply s).2 = clearSession s := rfl
  have hkeys := clearSession_absent s
  rw [hrun]
  exact ⟨hkeys TOKEN_KEY (by simp [sessionKeys]), hkeys PHONE_KEY (by simp [sessionKeys]),
    hkeys USER_KEY (by simp [sessionKeys]), hkeys EXPIRY_KEY (by simp [sessionKeys])⟩

/-- C7: with a non-empty token stored, `getUserData()` answered with status
401 returns null and leaves none of the four session keys in the store, and
`getUserData()` failing in transport returns null and leaves the store as it
was. -/
theorem getUserData_unauthorized_or_failed (s : Store) (tok : String)
    (htok : getToken s = some tok) (htokne : tok ≠ "") :
    (∀ body, (getUserData (Reply.received { status := 401, body := body }) s).1 = none ∧
      ∀ k ∈ sessionKeys,
        getItem (getUserData (Reply.received { status := 401, body := body }) s).2 k = none) ∧
    getUserData Reply.networkError s = (none, s) := by
  have htruthy : truthy (getToken s) = true := by
    rw [htok]; simp [truthy, htokne]
  constructor
  · intro body
    have hrun : getUserData (Reply.received { status := 401, body := body }) s
        = (none, clearSession s) := by
      simp [getUserData, htruthy]
    rw [hrun]
    exact ⟨rfl, clearSession_absent s⟩
  · simp [getUserData, htruthy]

/-- C7 at work: token `abc` stored, the API answers 401. -/
theorem getUserData_unauthorized_or_failed_witness :
    (getUserData (Reply.received { status := 401, body := none }) tokenPhoneStore).1 = none ∧
    getItem (getUserData (Reply.received { status := 401, body := none }) tokenPhoneStore).2
      PHONE_KEY = none ∧
    getUserData Reply.networkError tokenPhoneStore = (none, tokenPhoneStore) :=
  ⟨((getUserData_unauthorized_or_failed tokenPhoneStore "abc" (by decide) (by decide)).1
      none).1,
   ((getUserData_unauthorized_or_failed tokenPhoneStore "abc" (by decide) (by decide)).1
      none).2 PHONE_KEY (by decide),
   (getUserData_unauthorized_or_failed tokenPhoneStore "abc" (by decide) (by decide)).2⟩

/-! ## Properties of the page load -/

theorem redirectToLogin_store (page : Page) : (redirectToLogin page).store = page.store := by
  unfold redirectToLogin
  split <;> rfl

/-- With no expiry stored, `checkSessionExpiry()` does nothing. -/
theorem checkSessionExpiry_of_no_expiry (h : Host) (now : Int) (page : Page)
    (hnone : getItem page.store EXPIRY_KEY = none) : checkSessionExpiry h now page = page := by
  simp [checkSessionExpiry, hnone, truthy]

/-- A page load over a stored session whose expiry has passed: the session is
cleared by `isAuthenticated()`, the redirect of `init` is the only thing that
may happen, and `checkSessionExpiry()` finds no expiry left to report. -/
theorem init_expired_session (h : Host) (now1 now2 : Int) (page : Page) (tok e : String)
    (T : Int) (htok : getItem page.store TOKEN_KEY = some tok) (htokne : tok ≠ "")
    (hexp : getItem page.store EXPIRY_KEY = some e) (hene : e ≠ "")
    (hparse : h.parse e = some T) (hpast : T < now1) :
    init h now1 now2 page =
      if includes page.href "dashboard.html" || includes page.href "profile.html" then
        redirectToLogin { page with store := clearSession page.store }
      else
        { page with store := clearSession page.store } := by
  have hrun : isAuthenticated h now1 page.store = (false, clearSession page.store) := by
    simp [isAuthenticated, getToken, htok, hexp, truthy, htokne, hene, newDate, hparse,
      dateGt, hpast]
  have hgone : getItem (clearSession page.store) EXPIRY_KEY = none :=
    clearSession_absent page.store EXPIRY_KEY (by simp [sessionKeys])
  unfold init
  rw [hrun]
  simp only [Bool.not_false, Bool.true_and]
  split
  · exact checkSessionExpiry_of_no_expiry h now2 _ (by rw [redirectToLogin_store]; exact hgone)
  · exact checkSessionExpiry_of_no_expiry h now2 _ hgone

/-- A page load over a stored session whose expiry has passed shows no alert:
every alert among the effects afterwards was there before. -/
theorem init_expired_session_no_alert (h : Host) (now1 now2 : Int) (page : Page)
    (tok e : String) (T : Int) (htok : getItem page.store TOKEN_KEY = some tok)
    (htokne : tok ≠ "") (hexp : getItem page.store EXPIRY_KEY = some e) (hene : e ≠ "")
    (hparse : h.parse e = some T) (hpast : T < now1) (message : String)
    (halert : Effect.alert message ∈ (init h now1 now2 page).effects) :
    Effect.alert message ∈ page.effects := by
  rw [init_expired_session h now1 now2 page tok e T htok htokne hexp hene hparse hpast] at halert
  split at halert
  · unfold redirectToLogin at halert
    split at halert
    · simpa using halert
    · exact halert
  · exact halert

/-- C11 fails on the code. The claim: a page load of `init()` on a dashboard
view over a session whose expiry is in the past surfaces a session-expired
notice, before the navigation to the login view is signalled, and leaves none
of the four session keys. The code, on the dashboard view over the session
with token `abc` and expiry 2026-11-01, loaded on 2026-11-05: the navigation
to `login.html` is the only effect, no alert is shown at all, and the four
session keys are absent. -/
theorem init_expired_dashboard_no_notice :
    (init (isoHost 0) nov5 nov5 (dashboardPage expiredStore)).effects
      = [Effect.navigate "login.html"] ∧
    getItem (init (isoHost 0) nov5 nov5 (dashboardPage expiredStore)).store TOKEN_KEY = none ∧
    getItem (init (isoHost 0) nov5 nov5 (dashboardPage expiredStore)).store PHONE_KEY = none ∧
    getItem (init (isoHost 0) nov5 nov5 (dashboardPage expiredStore)).store USER_KEY = none ∧
    getItem (init (isoHost 0) nov5 nov5 (dashboardPage expiredStore)).store EXPIRY_KEY = none := by
  decide

/-- The alert of `checkSessionExpiry()` is reached when an expired expiry is
stored without a token, since `isAuthenticated()` then clears nothing; it
comes after the navigation that `init` has already signalled. -/
theorem init_expired_without_token :
    (init (isoHost 0) nov5 nov5 (dashboardPage noTokenStore)).effects
      = [Effect.navigate "login.html",
         Effect.alert "Your session has expired. Please login again.",
         Effect.navigate "login.html"] := by
  decide

/-! ## Properties of binary64 rounding -/

theorem roundHalfEven_spec (x : ℚ) :
    |x - roundHalfEven x| < 1 / 2 ∨
      (|x - roundHalfEven x| = 1 / 2 ∧ roundHalfEven x % 2 = 0) := by
  have h1 := Int.floor_le x
  have h2 := Int.lt_floor_add_one x
  unfold roundHalfEven
  split_ifs with ha hb hc
  · left
    rw [abs_lt]; constructor <;> linarith
  · left
    push_cast
    rw [abs_lt]; constructor <;> linarith
  · right
    have he : x - ⌊x⌋ = 1 / 2 := le_antisymm (not_lt.mp hb) (not_lt.mp ha)
    exact ⟨by rw [he]; norm_num, hc⟩
  · right
    have he : x - ⌊x⌋ = 1 / 2 := le_antisymm (not_lt.mp hb) (not_lt.mp ha)
    refine ⟨?_, by omega⟩
    push_cast
    have : x - (⌊x⌋ + 1) = -(1 / 2) := by linarith
    rw [this]; norm_num

theorem roundHalfEven_unique (x : ℚ) (n : ℤ)
    (h : |x - n| < 1 / 2 ∨ (|x - n| = 1 / 2 ∧ n % 2 = 0)) : roundHalfEven x = n := by
  rcases roundHalfEven_spec x with hs | ⟨hs, hev⟩ <;> rcases h with hn | ⟨hn, hnev⟩
  · -- both strictly within a half: the integers differ by less than one
    have : |((roundHalfEven x - n : ℤ) : ℚ)| < 1 := by
      push_cast
      have := abs_sub_lt_iff.mp hs
      have := abs_sub_lt_iff.mp hn
      rw [abs_lt]; constructor <;> linarith
    have h3 : |roundHalfEven x - n| < 1 := by exact_mod_cast this
    have := Int.abs_lt_one_iff.mp h3
    omega
  · have : |((roundHalfEven x - n : ℤ) : ℚ)| < 1 := by
      push_cast
      have := abs_sub_lt_iff.mp hs
      have := abs_le.mp hn.le
      rw [abs_lt]; constructor <;> linarith
    have h3 : |roundHalfEven x - n| < 1 := by exact_mod_cast this
    have := Int.abs_lt_one_iff.mp h3
    omega
  · have : |((roundHalfEven x - n : ℤ) : ℚ)| < 1 := by
      push_cast
      have := abs_le.mp hs.le
      have := abs_sub_lt_iff.mp hn
      rw [abs_lt]; constructor <;> linarith
    have h3 : |roundHalfEven x - n| < 1 := by exact_mod_cast this
    have := Int.abs_lt_one_iff.mp h3
    omega
  · -- both at distance one half and both even
    have h1 := abs_le.mp hs.le
    have h2 := abs_le.mp hn.le
    have : |((roundHalfEven x - n : ℤ) : ℚ)| ≤ 1 := by
      push_cast
      rw [abs_le]; constructor <;> linarith
    have h3 : |roundHalfEven x - n| ≤ 1 := by exact_mod_cast this
    have h4 := abs_le.mp h3
    omega

theorem roundHalfEven_intCast (n : ℤ) : roundHalfEven (n : ℚ) = n :=
  roundHalfEven_unique _ n (Or.inl (by simp))

theorem roundHalfEven_neg (x : ℚ) : roundHalfEven (-x) = -roundHalfEven x := by
  apply roundHalfEven_unique
  have key : |(-x) - ((-roundHalfEven x : ℤ) : ℚ)| = |x - roundHalfEven x| := by
    push_cast
    rw [← abs_neg]; congr 1; ring
  rw [key]
  rcases roundHalfEven_spec x with hs | ⟨hs, hev⟩
  · exact Or.inl hs
  · exact Or.inr ⟨hs, by omega⟩

theorem sub_half_le_roundHalfEven (x : ℚ) : x - 1 / 2 ≤ roundHalfEven x := by
  rcases roundHalfEven_spec x with hs | ⟨hs, _⟩
  · linarith [(abs_sub_lt_iff.mp hs).1]
  · linarith [(abs_le.mp hs.le).2]

theorem roundHalfEven_le_add_half (x : ℚ) : (roundHalfEven x : ℚ) ≤ x + 1 / 2 := by
  rcases roundHalfEven_spec x with hs | ⟨hs, _⟩
  · linarith [(abs_sub_lt_iff.mp hs).2]
  · linarith [(abs_le.mp hs.le).1]

theorem roundHalfEven_mono {x y : ℚ} (hxy : x ≤ y) : roundHalfEven x ≤ roundHalfEven y := by
  by_contra hlt
  push_neg at hlt
  -- then `roundHalfEven y + 1 ≤ roundHalfEven x`, squeezed between `y - 1/2` and `x + 1/2`
  have h1 := sub_half_le_roundHalfEven y
  have h2 := roundHalfEven_le_add_half x
  have h3 : (roundHalfEven y : ℚ) + 1 ≤ roundHalfEven x := by exact_mod_cast hlt
  have hx : (roundHalfEven x : ℚ) = x + 1 / 2 := by linarith
  have hy : (roundHalfEven y : ℚ) = y - 1 / 2 := by linarith
  have hxy2 : x = y := by linarith
  have hsucc : (roundHalfEven x : ℚ) = roundHalfEven y + 1 := by linarith
  have hsucc2 : roundHalfEven x = roundHalfEven y + 1 := by exact_mod_cast hsucc
  have ex : roundHalfEven x % 2 = 0 := by
    rcases roundHalfEven_spec x with hs | ⟨_, hev⟩
    · exfalso
      have := abs_sub_lt_iff.mp hs
      linarith
    · exact hev
  have ey : roundHalfEven y % 2 = 0 := by
    rcases roundHalfEven_spec y with hs | ⟨_, hev⟩
    · exfalso
      have := abs_sub_lt_iff.mp hs
      linarith
    · exact hev
  omega

theorem le_roundHalfEven_of_le {x : ℚ} {n : ℤ} (h : (n : ℚ) ≤ x) : n ≤ roundHalfEven x := by
  have := roundHalfEven_mono h
  rwa [roundHalfEven_intCast] at this

theorem roundHalfEven_le_of_le {x : ℚ} {n : ℤ} (h : x ≤ (n : ℚ)) : roundHalfEven x ≤ n := by
  have := roundHalfEven_mono h
  rwa [roundHalfEven_intCast] at this

/-! ### Binades -/

theorem binadeExp_ge (x : ℚ) : -1022 ≤ binadeExp x := le_max_right _ _

theorem binadeExp_neg (x : ℚ) : binadeExp (-x) = binadeExp x := by
  simp [binadeExp]

theorem ulp_pos (x : ℚ) : 0 < ulp x := zpow_pos (by norm_num) _

theorem ulp_neg (x : ℚ) : ulp (-x) = ulp x := by simp [ulp, binadeExp_neg]

theorem abs_lt_two_zpow_binadeExp (x : ℚ) : |x| < 2 ^ (binadeExp x + 1) := by
  have h1 : |x| < ((2 : ℕ) : ℚ) ^ (Int.log 2 |x| + 1) :=
    Int.lt_zpow_succ_log_self (by norm_num) _
  have h2 : ((2 : ℕ) : ℚ) ^ (Int.log 2 |x| + 1) ≤ (2 : ℚ) ^ (binadeExp x + 1) := by
    have : Int.log 2 |x| + 1 ≤ binadeExp x + 1 := by
      have := le_max_left (Int.log 2 |x|) (-1022)
      unfold binadeExp
      omega
    exact_mod_cast zpow_le_zpow_right₀ (by norm_num : (1 : ℚ) ≤ 2) this
  exact lt_of_lt_of_le h1 h2

theorem binadeExp_eq_of_bracket {x : ℚ} {e : ℤ} (he : -1022 ≤ e) (hlo : 2 ^ e ≤ |x|)
    (hhi : |x| < 2 ^ (e + 1)) : binadeExp x = e := by
  have hpos : 0 < |x| := lt_of_lt_of_le (zpow_pos (by norm_num) _) hlo
  have h1 : e ≤ Int.log 2 |x| :=
    (Int.zpow_le_iff_le_log (by norm_num) hpos).mp (by exact_mod_cast hlo)
  have h2 : Int.log 2 |x| < e + 1 :=
    (Int.lt_zpow_iff_log_lt (by norm_num) hpos).mp (by exact_mod_cast hhi)
  unfold binadeExp
  have : Int.log 2 |x| = e := by omega
  rw [this]
  exact max_eq_left he

theorem two_zpow_binadeExp_le {x : ℚ} (hx : 2 ^ (-1022 : ℤ) ≤ |x|) :
    2 ^ binadeExp x ≤ |x| := by
  have hpos : 0 < |x| := lt_of_lt_of_le (zpow_pos (by norm_num) _) hx
  have h1 : (-1022 : ℤ) ≤ Int.log 2 |x| :=
    (Int.zpow_le_iff_le_log (by norm_num) hpos).mp (by exact_mod_cast hx)
  have h2 : binadeExp x = Int.log 2 |x| := max_eq_left h1
  rw [h2]
  exact_mod_cast Int.zpow_log_le_self (by norm_num) hpos

theorem binadeExp_mono {x y : ℚ} (hx : x ≠ 0) (hxy : |x| ≤ |y|) :
    binadeExp x ≤ binadeExp y :=
  max_le_max (Int.log_mono_right (abs_pos.mpr hx) hxy) le_rfl

/-! ### Rounding to a double -/

theorem fl_zero : fl 0 = 0 := by
  have h0 : roundHalfEven 0 = 0 := by simpa using roundHalfEven_intCast 0
  simp [fl, h0]

theorem fl_neg (x : ℚ) : fl (-x) = -fl x := by
  unfold fl
  rw [ulp_neg, neg_div, roundHalfEven_neg]
  push_cast
  ring

theorem fl_nonneg {x : ℚ} (hx : 0 ≤ x) : 0 ≤ fl x := by
  unfold fl
  have h0 : (0 : ℤ) ≤ roundHalfEven (x / ulp x) :=
    le_roundHalfEven_of_le (by simpa using div_nonneg hx (ulp_pos x).le)
  exact mul_nonneg (by exact_mod_cast h0) (ulp_pos x).le

theorem fl_nonpos {x : ℚ} (hx : x ≤ 0) : fl x ≤ 0 := by
  have := fl_nonneg (neg_nonneg.mpr hx)
  rw [fl_neg] at this
  linarith

/-- The value `m * 2 ^ (e - 52)` that `fl` gives in the binade of exponent
`e`, once the nearest integer `m` to the scaled argument is known. -/
theorem fl_eq_of_bracket {x : ℚ} {e m : ℤ} (he : -1022 ≤ e) (hlo : 2 ^ e ≤ |x|)
    (hhi : |x| < 2 ^ (e + 1)) (hm : |x / 2 ^ (e - 52) - m| < 1 / 2) :
    fl x = m * 2 ^ (e - 52) := by
  unfold fl ulp
  rw [binadeExp_eq_of_bracket he hlo hhi, roundHalfEven_unique _ m (Or.inl hm)]

theorem two_zpow_split (e : ℤ) (k : ℕ) : (2 : ℚ) ^ (e - 52 + k) = 2 ^ k * 2 ^ (e - 52) := by
  rw [zpow_add₀ (by norm_num : (2 : ℚ) ≠ 0), zpow_natCast, mul_comm]

theorem fl_le_two_zpow (x : ℚ) : fl x ≤ 2 ^ (binadeExp x + 1) := by
  have hu := ulp_pos x
  have h1 : x / ulp x ≤ ((2 ^ 53 : ℤ) : ℚ) := by
    rw [div_le_iff₀ hu]
    have h2 := abs_lt_two_zpow_binadeExp x
    have h3 : (2 : ℚ) ^ (binadeExp x + 1) = (2 : ℚ) ^ (53 : ℕ) * ulp x := by
      unfold ulp
      rw [← two_zpow_split]; congr 1; push_cast; ring
    have hc : ((2 ^ 53 : ℤ) : ℚ) = (2 : ℚ) ^ (53 : ℕ) := by norm_num
    rw [hc]
    linarith [le_abs_self x]
  have h4 : ((roundHalfEven (x / ulp x) : ℤ) : ℚ) ≤ ((2 ^ 53 : ℤ) : ℚ) := by
    exact_mod_cast roundHalfEven_le_of_le h1
  have h5 : (2 : ℚ) ^ (binadeExp x + 1) = ((2 ^ 53 : ℤ) : ℚ) * ulp x := by
    have hc : ((2 ^ 53 : ℤ) : ℚ) = (2 : ℚ) ^ (53 : ℕ) := by norm_num
    unfold ulp
    rw [hc, ← two_zpow_split]; congr 1; push_cast; ring
  rw [h5]
  unfold fl
  exact mul_le_mul_of_nonneg_right h4 hu.le

theorem two_zpow_le_fl {x : ℚ} (hx : 0 < x) (hexp : -1022 < binadeExp x) :
    2 ^ binadeExp x ≤ fl x := by
  have hu := ulp_pos x
  have hlog : binadeExp x = Int.log 2 |x| := by
    unfold binadeExp at hexp ⊢
    rcases max_cases (Int.log 2 |x|) (-1022) with ⟨h, _⟩ | ⟨h, _⟩
    · exact h
    · rw [h] at hexp; omega
  have hle : (2 : ℚ) ^ binadeExp x ≤ x := by
    rw [hlog]
    have := Int.zpow_log_le_self (R := ℚ) (b := 2) (by norm_num) (abs_pos.mpr hx.ne')
    rw [abs_of_pos hx] at this ⊢
    exact_mod_cast this
  have h3 : (2 : ℚ) ^ binadeExp x = ((2 ^ 52 : ℤ) : ℚ) * ulp x := by
    have hc : ((2 ^ 52 : ℤ) : ℚ) = (2 : ℚ) ^ (52 : ℕ) := by norm_num
    unfold ulp
    rw [hc, ← two_zpow_split]; congr 1; push_cast; ring
  have h1 : ((2 ^ 52 : ℤ) : ℚ) ≤ x / ulp x := by
    rw [le_div_iff₀ hu, ← h3]
    exact hle
  have h4 : ((2 ^ 52 : ℤ) : ℚ) ≤ ((roundHalfEven (x / ulp x) : ℤ) : ℚ) := by
    exact_mod_cast le_roundHalfEven_of_le h1
  rw [h3]
  unfold fl
  exact mul_le_mul_of_nonneg_right h4 hu.le

theorem fl_mono_of_pos {x y : ℚ} (hx : 0 < x) (hxy : x ≤ y) : fl x ≤ fl y := by
  have hy : 0 < y := lt_of_lt_of_le hx hxy
  have hexp : binadeExp x ≤ binadeExp y :=
    binadeExp_mono hx.ne' (by rwa [abs_of_pos hx, abs_of_pos hy])
  rcases eq_or_lt_of_le hexp with heq | hlt
  · have hu : ulp x = ulp y := by unfold ulp; rw [heq]
    unfold fl
    rw [hu]
    have hq : x / ulp y ≤ y / ulp y := div_le_div_of_nonneg_right hxy (ulp_pos y).le
    have hr : ((roundHalfEven (x / ulp y) : ℤ) : ℚ) ≤ roundHalfEven (y / ulp y) := by
      exact_mod_cast roundHalfEven_mono hq
    exact mul_le_mul_of_nonneg_right hr (ulp_pos y).le
  · have h1 := fl_le_two_zpow x
    have h2 := two_zpow_le_fl hy (lt_of_le_of_lt (binadeExp_ge x) hlt)
    have h3 : (2 : ℚ) ^ (binadeExp x + 1) ≤ 2 ^ binadeExp y :=
      zpow_le_zpow_right₀ (by norm_num) (by omega)
    linarith

/-- Rounding to a double is monotone. -/
theorem fl_mono {x y : ℚ} (hxy : x ≤ y) : fl x ≤ fl y := by
  rcases lt_trichotomy 0 x with hx | hx | hx
  · exact fl_mono_of_pos hx hxy
  · subst hx
    rw [fl_zero]
    exact fl_nonneg hxy
  · rcases le_or_lt 0 y with hy | hy
    · exact le_trans (fl_nonpos hx.le) (fl_nonneg hy)
    · have := fl_mono_of_pos (neg_pos.mpr hy) (neg_le_neg hxy)
      rw [fl_neg, fl_neg] at this
      linarith

/-- Rounding leaves `m * 2 ^ k` alone when `m` fits in 53 bits and `k` is not
below the exponent of the smallest subnormal. -/
theorem fl_dyadic (m k : ℤ) (hm : |m| < 2 ^ 53) (hk : -1074 ≤ k) :
    fl (m * 2 ^ k) = m * 2 ^ k := by
  rcases eq_or_ne m 0 with rfl | hm0
  · simp [fl_zero]
  have h2k : (0 : ℚ) < 2 ^ k := zpow_pos (by norm_num) _
  have hxabs : |(m : ℚ) * 2 ^ k| = |(m : ℚ)| * 2 ^ k := by
    rw [abs_mul, abs_of_pos h2k]
  have hmq : |(m : ℚ)| < 2 ^ (53 : ℕ) := by exact_mod_cast hm
  have hpos : 0 < |(m : ℚ) * 2 ^ k| := by
    rw [hxabs]
    exact mul_pos (abs_pos.mpr (by exact_mod_cast hm0)) h2k
  have hlt : |(m : ℚ) * 2 ^ k| < 2 ^ (k + 53) := by
    rw [hxabs, zpow_add₀ (by norm_num : (2 : ℚ) ≠ 0), mul_comm]
    exact mul_lt_mul_of_pos_left (by exact_mod_cast hmq) h2k
  have hlog : Int.log 2 |(m : ℚ) * 2 ^ k| < k + 53 :=
    (Int.lt_zpow_iff_log_lt (by norm_num) hpos).mp (by exact_mod_cast hlt)
  have he : binadeExp ((m : ℚ) * 2 ^ k) ≤ k + 52 := max_le (by omega) (by omega)
  obtain ⟨j, hj⟩ : ∃ j : ℕ, (j : ℤ) = k + 52 - binadeExp ((m : ℚ) * 2 ^ k) :=
    ⟨(k + 52 - binadeExp ((m : ℚ) * 2 ^ k)).toNat, Int.toNat_of_nonneg (by omega)⟩
  have hq : (m : ℚ) * 2 ^ k / ulp ((m : ℚ) * 2 ^ k) = ((m * 2 ^ j : ℤ) : ℚ) := by
    have hu := ulp_pos ((m : ℚ) * 2 ^ k)
    rw [div_eq_iff hu.ne']
    unfold ulp
    push_cast
    rw [mul_assoc, ← zpow_natCast, ← zpow_add₀ (by norm_num : (2 : ℚ) ≠ 0), hj]
    congr 2
    ring
  unfold fl
  rw [hq, roundHalfEven_intCast, ← hq, div_mul_cancel₀ _ (ulp_pos _).ne']

theorem abs_roundHalfEven_div_ulp_le (x : ℚ) : |roundHalfEven (x / ulp x)| ≤ 2 ^ 53 := by
  have hu := ulp_pos x
  have h2 := abs_lt_two_zpow_binadeExp x
  have h3 : (2 : ℚ) ^ (binadeExp x + 1) = (2 : ℚ) ^ (53 : ℕ) * ulp x := by
    unfold ulp
    rw [← two_zpow_split]; congr 1; push_cast; ring
  have hc : ((2 ^ 53 : ℤ) : ℚ) = (2 : ℚ) ^ (53 : ℕ) := by norm_num
  have habs := abs_lt.mp h2
  rw [abs_le]
  constructor
  · apply le_roundHalfEven_of_le
    rw [le_div_iff₀ hu]
    push_cast
    rw [hc] at *
    linarith
  · apply roundHalfEven_le_of_le
    rw [div_le_iff₀ hu, hc]
    linarith

/-- A rounded value is a double: rounding it again changes nothing. -/
theorem fl_idem (x : ℚ) : fl (fl x) = fl x := by
  have hM := abs_roundHalfEven_div_ulp_le x
  have he := binadeExp_ge x
  rcases lt_or_eq_of_le hM with hlt | heq
  · unfold fl ulp at *
    exact fl_dyadic _ _ hlt (by omega)
  · have hval : fl x = ((roundHalfEven (x / ulp x) / 2 : ℤ) : ℚ) * 2 ^ (binadeExp x - 51) := by
      have hdiv : roundHalfEven (x / ulp x) = 2 * (roundHalfEven (x / ulp x) / 2) := by
        rcases abs_eq (by norm_num : (0 : ℤ) ≤ 2 ^ 53) |>.mp heq with h | h <;> rw [h] <;> norm_num
      have hsplit : (2 : ℚ) ^ (binadeExp x - 51) = 2 * 2 ^ (binadeExp x - 52) := by
        have := two_zpow_split (binadeExp x) 1
        rw [pow_one] at this
        rw [← this]; congr 1; push_cast; ring
      have hcast : ((roundHalfEven (x / ulp x) : ℤ) : ℚ)
          = 2 * ((roundHalfEven (x / ulp x) / 2 : ℤ) : ℚ) := by
        exact_mod_cast hdiv
      rw [hsplit]
      unfold fl
      rw [hcast]
      unfold ulp
      ring
    rw [hval]
    apply fl_dyadic
    · rcases abs_eq (by norm_num : (0 : ℤ) ≤ 2 ^ 53) |>.mp heq with h | h <;> rw [h] <;> norm_num
    · omega

/-- Relative accuracy of rounding in the normal range, from below. -/
theorem mul_le_fl {y : ℚ} (hy : 2 ^ (-1022 : ℤ) ≤ y) : y * (1 - 1 / 2 ^ 53) ≤ fl y := by
  have hy0 : 0 < y := lt_of_lt_of_le (zpow_pos (by norm_num) _) hy
  have hu := ulp_pos y
  have hle : (2 : ℚ) ^ binadeExp y ≤ y := by
    have := two_zpow_binadeExp_le (x := y) (by rwa [abs_of_pos hy0])
    rwa [abs_of_pos hy0] at this
  have h3 : (2 : ℚ) ^ binadeExp y = (2 : ℚ) ^ (52 : ℕ) * ulp y := by
    unfold ulp
    rw [← two_zpow_split]; congr 1; push_cast; ring
  have h4 := sub_half_le_roundHalfEven (y / ulp y)
  have h5 : (y / ulp y - 1 / 2) * ulp y ≤ fl y := by
    unfold fl
    exact mul_le_mul_of_nonneg_right h4 hu.le
  have h6 : (y / ulp y - 1 / 2) * ulp y = y - ulp y / 2 := by
    field_simp
    ring
  rw [h6] at h5
  have h7 : ulp y ≤ y / 2 ^ 52 := by
    rw [le_div_iff₀ (by positivity)]
    linarith
  have h8 : y / 2 ^ 52 / 2 = y * (1 / 2 ^ 53) := by ring
  linarith

/-! ### Bounding a rounded value by doubles -/

theorem fl_eq_self_of_dyadic {b : ℚ} (m : ℤ) (j : ℕ) (hb : b = m / 2 ^ j)
    (hm : |m| < 2 ^ 53) (hj : j ≤ 1074) : fl b = b := by
  have h := fl_dyadic m (-(j : ℤ)) hm (by omega)
  have hb2 : b = (m : ℚ) * 2 ^ (-(j : ℤ)) := by
    rw [hb, zpow_neg, zpow_natCast, div_eq_mul_inv]
  rw [hb2]
  exact h

theorem fl_le_of_le {x b : ℚ} (m : ℤ) (j : ℕ) (hb : b = m / 2 ^ j)
    (hm : |m| < 2 ^ 53) (hj : j ≤ 1074) (h : x ≤ b) : fl x ≤ b := by
  have := fl_mono h
  rwa [fl_eq_self_of_dyadic m j hb hm hj] at this

theorem le_fl_of_le {x a : ℚ} (m : ℤ) (j : ℕ) (ha : a = m / 2 ^ j)
    (hm : |m| < 2 ^ 53) (hj : j ≤ 1074) (h : a ≤ x) : a ≤ fl x := by
  have := fl_mono h
  rwa [fl_eq_self_of_dyadic m j ha hm hj] at this

theorem jsRound_mono {x y : ℚ} (h : x ≤ y) : jsRound x ≤ jsRound y :=
  Int.floor_mono (by linarith)

/-- A double below 1 is at most the largest double below 1. -/
theorem isRandomDraw_le {r : ℚ} (hr : isRandomDraw r) : r ≤ 1 - 1 / 2 ^ 53 := by
  obtain ⟨hd, h0, h1⟩ := hr
  by_contra hgt
  push_neg at hgt
  have hhalf : (2 : ℚ) ^ (-1 : ℤ) ≤ |r| := by
    rw [abs_of_nonneg h0]
    norm_num at hgt ⊢
    linarith
  have hexp : binadeExp r = -1 :=
    binadeExp_eq_of_bracket (by norm_num) hhalf (by rw [abs_of_nonneg h0]; simpa using h1)
  have hu : ulp r = 1 / 2 ^ 53 := by
    unfold ulp; rw [hexp]; norm_num
  unfold fl at hd
  rw [hu] at hd
  set N := roundHalfEven (r / (1 / 2 ^ 53)) with hN
  have hr2 : r = (N : ℚ) / 2 ^ 53 := by rw [← hd]; ring
  have hlt : (N : ℚ) < 2 ^ 53 := by
    rw [hr2] at h1
    rwa [div_lt_one (by positivity)] at h1
  have hgt2 : (2 : ℚ) ^ 53 - 1 < N := by
    rw [hr2] at hgt
    rw [lt_div_iff₀ (by positivity)] at hgt
    linarith
  have h3 : N < 2 ^ 53 := by exact_mod_cast hlt
  have h4 : 2 ^ 53 - 1 < N := by exact_mod_cast hgt2
  omega

theorem isRandomDraw_half : isRandomDraw (1 / 2) :=
  ⟨fl_eq_self_of_dyadic 1 1 (by norm_num) (by norm_num) (by norm_num), by norm_num, by norm_num⟩

theorem isRandomDraw_zero : isRandomDraw 0 :=
  ⟨fl_zero, le_refl 0, by norm_num⟩

/-! ### The doubles of the source's literals -/

theorem fl_0_005 : fl 0.005 = 5764607523034235 / 2 ^ 60 := by
  have h := fl_eq_of_bracket (x := 0.005) (e := -8) (m := 5764607523034235)
    (by norm_num) (by norm_num [abs_of_pos]) (by norm_num [abs_of_pos])
    (by norm_num [abs_lt])
  rw [h]; norm_num

theorem fl_0_03 : fl 0.03 = 8646911284551352 / 2 ^ 58 := by
  have h := fl_eq_of_bracket (x := 0.03) (e := -6) (m := 8646911284551352)
    (by norm_num) (by norm_num [abs_of_pos]) (by norm_num [abs_of_pos])
    (by norm_num [abs_lt])
  rw [h]; norm_num

theorem fl_0_035 : fl 0.035 = 5044031582654956 / 2 ^ 57 := by
  have h := fl_eq_of_bracket (x := 0.035) (e := -5) (m := 5044031582654956)
    (by norm_num) (by norm_num [abs_of_pos]) (by norm_num [abs_of_pos])
    (by norm_num [abs_lt])
  rw [h]; norm_num

/-- The double `0.005 + 0.03`: one unit in the last place below the double
`0.035`. -/
theorem fadd_0_005_0_03 : fadd (fl 0.005) (fl 0.03) = 5044031582654955 / 2 ^ 57 := by
  unfold fadd
  rw [fl_0_005, fl_0_03]
  have h := fl_eq_of_bracket
    (x := 5764607523034235 / 2 ^ 60 + 8646911284551352 / 2 ^ 58) (e := -5)
    (m := 5044031582654955)
    (by norm_num) (by norm_num [abs_of_pos]) (by norm_num [abs_of_pos])
    (by norm_num [abs_lt])
  rw [h]; norm_num

/-- The double `0.035 - 0.005`: one unit in the last place above the double
`0.03`. -/
theorem fsub_0_035_0_005 : fsub (fl 0.035) (fl 0.005) = 8646911284551353 / 2 ^ 58 := by
  unfold fsub
  rw [fl_0_005, fl_0_035]
  have h := fl_eq_of_bracket
    (x := 5044031582654956 / 2 ^ 57 - 5764607523034235 / 2 ^ 60) (e := -6)
    (m := 8646911284551353)
    (by norm_num) (by norm_num [abs_of_pos]) (by norm_num [abs_of_pos])
    (by norm_num [abs_lt])
  rw [h]; norm_num

/-- The largest product of a random draw with the double `0.035 - 0.005`
rounds to the double `0.03`. -/
theorem fl_top_draw_mul :
    fl ((1 - 1 / 2 ^ 53) * (8646911284551353 / 2 ^ 58)) = 8646911284551352 / 2 ^ 58 := by
  have h := fl_eq_of_bracket
    (x := (1 - 1 / 2 ^ 53) * (8646911284551353 / 2 ^ 58)) (e := -6)
    (m := 8646911284551352)
    (by norm_num) (by norm_num [abs_of_pos]) (by norm_num [abs_of_pos])
    (by norm_num [abs_lt])
  rw [h]; norm_num

/-- The largest product of a random draw with 3 rounds to a double below 3. -/
theorem fl_top_draw_mul_three :
    fl ((1 - 1 / 2 ^ 53) * 3) = 6755399441055743 / 2 ^ 51 := by
  have h := fl_eq_of_bracket
    (x := (1 - 1 / 2 ^ 53) * 3) (e := 1)
    (m := 6755399441055743)
    (by norm_num) (by norm_num [abs_of_pos]) (by norm_num [abs_of_pos])
    (by norm_num [abs_lt])
  rw [h]; norm_num

theorem le_fl_0_005 : (0.005 : ℚ) ≤ fl 0.005 := by
  rw [fl_0_005]; norm_num

/-! ### `calculateProfit` -/

/-- The percentage drawn by `calculateProfit` lies between the double `0.005`
and the double just below the double `0.035`. -/
theorem profitPercentage_bounds {r : ℚ} (hr : isRandomDraw r) :
    fl 0.005 ≤ fadd (fl 0.005) (fmul r (fsub (fl 0.035) (fl 0.005))) ∧
    fadd (fl 0.005) (fmul r (fsub (fl 0.035) (fl 0.005))) ≤ 5044031582654955 / 2 ^ 57 := by
  have hr1 := isRandomDraw_le hr
  obtain ⟨_, h0, _⟩ := hr
  rw [fsub_0_035_0_005]
  have hprod0 : (0 : ℚ) ≤ r * (8646911284551353 / 2 ^ 58) := by positivity
  have hprod1 : r * (8646911284551353 / 2 ^ 58)
      ≤ (1 - 1 / 2 ^ 53) * (8646911284551353 / 2 ^ 58) :=
    mul_le_mul_of_nonneg_right hr1 (by positivity)
  have hm0 : 0 ≤ fmul r (8646911284551353 / 2 ^ 58) := fl_nonneg hprod0
  have hm1 : fmul r (8646911284551353 / 2 ^ 58) ≤ fl 0.03 := by
    have := fl_mono hprod1
    rw [fl_top_draw_mul, ← fl_0_03] at this
    exact this
  constructor
  · have := fl_mono (show fl 0.005 ≤ fl 0.005 + fmul r (8646911284551353 / 2 ^ 58) by linarith)
    rwa [fl_idem] at this
  · have := fl_mono (show fl 0.005 + fmul r (8646911284551353 / 2 ^ 58)
        ≤ fl 0.005 + fl 0.03 by linarith)
    have h2 := fadd_0_005_0_03
    unfold fadd at h2 ⊢
    rwa [h2] at this

/-! ### `getRandomPair` and `getRandomEntryPrice` -/

theorem fl_0_5 : fl 0.5 = 1 / 2 := by
  have : (0.5 : ℚ) = 1 / 2 := by norm_num
  rw [this]
  exact fl_eq_self_of_dyadic 1 1 (by norm_num) (by norm_num) (by norm_num)

theorem fl_0_02_bounds : 0 ≤ fl 0.02 ∧ fl 0.02 ≤ 21990232556 / 2 ^ 40 :=
  ⟨fl_nonneg (by norm_num),
   fl_le_of_le 21990232556 40 (by norm_num) (by norm_num) (by norm_num) (by norm_num)⟩

theorem fl_1_08_bounds : 593736278999 / 2 ^ 39 ≤ fl 1.08 ∧ fl 1.08 ≤ 1187472557999 / 2 ^ 40 :=
  ⟨le_fl_of_le 593736278999 39 (by norm_num) (by norm_num) (by norm_num) (by norm_num),
   fl_le_of_le 1187472557999 40 (by norm_num) (by norm_num) (by norm_num) (by norm_num)⟩

/-- A random draw selects one of the three pairs. -/
theorem getRandomPair_cases {r : ℚ} (hr : isRandomDraw r) :
    getRandomPair r = some "BTC/USD" ∨ getRandomPair r = some "EUR/USD" ∨
      getRandomPair r = some "GOLD" := by
  have hr1 := isRandomDraw_le hr
  obtain ⟨_, h0, _⟩ := hr
  have hlen : ((pairs.length : ℕ) : ℚ) = 3 := by norm_num [pairs]
  have hlo : 0 ≤ fmul r 3 := fl_nonneg (by positivity)
  have hhi : fmul r 3 ≤ 6755399441055743 / 2 ^ 51 := by
    have := fl_mono (show r * 3 ≤ (1 - 1 / 2 ^ 53) * 3 by linarith)
    rwa [fl_top_draw_mul_three] at this
  have hi0 : 0 ≤ jsFloor (fmul r 3) := Int.floor_nonneg.mpr hlo
  have hi2 : jsFloor (fmul r 3) < 3 := Int.floor_lt.mpr (by
    push_cast
    refine lt_of_le_of_lt hhi ?_
    norm_num)
  unfold getRandomPair
  rw [hlen]
  simp only [hi0, if_true]
  obtain ⟨n, hn⟩ : ∃ n : ℕ, jsFloor (fmul r 3) = n := ⟨_, (Int.toNat_of_nonneg hi0).symm⟩
  rw [hn] at hi2 ⊢
  have hn3 : n < 3 := by exact_mod_cast hi2
  simp only [Int.toNat_ofNat]
  interval_cases n <;> simp [pairs]

/-- The price computed from a base between `b1` and `b2`, bounded step by
step by doubles: `C2` bounds the product with `0.02`, `V` the variation, `S1`
and `S2` the sum, `Y1` and `Y2` its product with 100, `N1` and `N2` the
rounded integer, `P1` and `P2` the quotient by 100. -/
theorem entryPrice_bounds (base r b1 b2 C2 V S1 S2 Y1 Y2 P1 P2 : ℚ) (N1 N2 : ℤ)
    (hr0 : 0 ≤ r) (hr1 : r < 1) (hb0 : 0 ≤ b1) (hb1 : b1 ≤ base) (hb2 : base ≤ b2)
    (hC2 : fl C2 = C2) (hC : b2 * (21990232556 / 2 ^ 40) ≤ C2)
    (hV : fl V = V) (hCV : C2 / 2 ≤ V)
    (hS1 : fl S1 = S1) (hS1le : S1 ≤ b1 - V) (hS2 : fl S2 = S2) (hS2le : b2 + V ≤ S2)
    (hY1 : fl Y1 = Y1) (hY1le : Y1 ≤ S1 * 100) (hY2 : fl Y2 = Y2) (hY2le : S2 * 100 ≤ Y2)
    (hN1 : (N1 : ℚ) ≤ Y1 + 1 / 2) (hN2 : Y2 + 1 / 2 < N2 + 1)
    (hP1 : fl P1 = P1) (hP1le : P1 ≤ N1 / 100) (hP2 : fl P2 = P2) (hP2le : (N2 : ℚ) / 100 ≤ P2) :
    P1 ≤ fdiv (jsRound (fmul (fadd base (fmul (fmul base (fl 0.02)) (fsub r (fl 0.5)))) 100)) 100 ∧
    fdiv (jsRound (fmul (fadd base (fmul (fmul base (fl 0.02)) (fsub r (fl 0.5)))) 100)) 100
      ≤ P2 := by
  obtain ⟨hf0, hf2⟩ := fl_0_02_bounds
  have hbase0 : 0 ≤ base := le_trans hb0 hb1
  -- the product with 0.02
  have hc0 : 0 ≤ fmul base (fl 0.02) := fl_nonneg (mul_nonneg hbase0 hf0)
  have hc2 : fmul base (fl 0.02) ≤ C2 := by
    have := fl_mono (show base * fl 0.02 ≤ C2 from
      le_trans (mul_le_mul hb2 hf2 hf0 (le_trans hbase0 hb2)) hC)
    rwa [hC2] at this
  -- the centred draw
  have hhalf : fl (1 / 2) = 1 / 2 :=
    fl_eq_self_of_dyadic 1 1 (by norm_num) (by norm_num) (by norm_num)
  have hd1 : -(1 / 2) ≤ fsub r (fl 0.5) := by
    unfold fsub
    rw [fl_0_5]
    have := fl_mono (show -(1 / 2 : ℚ) ≤ r - 1 / 2 by linarith)
    rwa [fl_neg, hhalf] at this
  have hd2 : fsub r (fl 0.5) ≤ 1 / 2 := by
    unfold fsub
    rw [fl_0_5]
    have := fl_mono (show r - 1 / 2 ≤ (1 / 2 : ℚ) by linarith)
    rwa [hhalf] at this
  -- the variation
  have hv2 : fmul (fmul base (fl 0.02)) (fsub r (fl 0.5)) ≤ V := by
    have h1 : fmul base (fl 0.02) * fsub r (fl 0.5) ≤ fmul base (fl 0.02) * (1 / 2) :=
      mul_le_mul_of_nonneg_left hd2 hc0
    have := fl_mono (show fmul base (fl 0.02) * fsub r (fl 0.5) ≤ V by linarith)
    rwa [hV] at this
  have hv1 : -V ≤ fmul (fmul base (fl 0.02)) (fsub r (fl 0.5)) := by
    have h1 : fmul base (fl 0.02) * -(1 / 2) ≤ fmul base (fl 0.02) * fsub r (fl 0.5) :=
      mul_le_mul_of_nonneg_left hd1 hc0
    have := fl_mono (show -V ≤ fmul base (fl 0.02) * fsub r (fl 0.5) by linarith)
    rwa [fl_neg, hV] at this
  -- the sum
  have hs1 : S1 ≤ fadd base (fmul (fmul base (fl 0.02)) (fsub r (fl 0.5))) := by
    have := fl_mono (show S1 ≤ base + fmul (fmul base (fl 0.02)) (fsub r (fl 0.5)) by
      linarith)
    rwa [hS1] at this
  have hs2 : fadd base (fmul (fmul base (fl 0.02)) (fsub r (fl 0.5))) ≤ S2 := by
    have := fl_mono (show base + fmul (fmul base (fl 0.02)) (fsub r (fl 0.5)) ≤ S2 by
      linarith)
    rwa [hS2] at this
  -- the product with 100
  have hy1 : Y1 ≤ fmul (fadd base (fmul (fmul base (fl 0.02)) (fsub r (fl 0.5)))) 100 := by
    have := fl_mono (show Y1 ≤
      fadd base (fmul (fmul base (fl 0.02)) (fsub r (fl 0.5))) * 100 by linarith)
    rwa [hY1] at this
  have hy2 : fmul (fadd base (fmul (fmul base (fl 0.02)) (fsub r (fl 0.5)))) 100 ≤ Y2 := by
    have := fl_mono (show
      fadd base (fmul (fmul base (fl 0.02)) (fsub r (fl 0.5))) * 100 ≤ Y2 by linarith)
    rwa [hY2] at this
  -- the rounded integer
  have hn1 : N1 ≤
      jsRound (fmul (fadd base (fmul (fmul base (fl 0.02)) (fsub r (fl 0.5)))) 100) :=
    Int.le_floor.mpr (by linarith)
  have hn2 :
      jsRound (fmul (fadd base (fmul (fmul base (fl 0.02)) (fsub r (fl 0.5)))) 100) ≤ N2 := by
    have : jsRound (fmul (fadd base (fmul (fmul base (fl 0.02)) (fsub r (fl 0.5)))) 100)
        < N2 + 1 := Int.floor_lt.mpr (by push_cast; linarith)
    omega
  have hq1 : ((N1 : ℤ) : ℚ) ≤
      jsRound (fmul (fadd base (fmul (fmul base (fl 0.02)) (fsub r (fl 0.5)))) 100) := by
    exact_mod_cast hn1
  have hq2 : ((jsRound (fmul (fadd base (fmul (fmul base (fl 0.02)) (fsub r (fl 0.5)))) 100)
      : ℤ) : ℚ) ≤ N2 := by
    exact_mod_cast hn2
  -- the quotient by 100
  constructor
  · have := fl_mono (show P1 ≤
      (jsRound (fmul (fadd base (fmul (fmul base (fl 0.02)) (fsub r (fl 0.5)))) 100) : ℚ) / 100
      by linarith)
    rwa [hP1] at this
  · have := fl_mono (show
      (jsRound (fmul (fadd base (fmul (fmul base (fl 0.02)) (fsub r (fl 0.5)))) 100) : ℚ) / 100
        ≤ P2 by linarith)
    rwa [hP2] at this

/-- The price computed with base 60000, for a draw in [0, 1). -/
theorem entryPrice_btc {r : ℚ} (hr0 : 0 ≤ r) (hr1 : r < 1) :
    59400 ≤ fdiv (jsRound (fmul (fadd 60000
        (fmul (fmul 60000 (fl 0.02)) (fsub r (fl 0.5)))) 100)) 100 ∧
    fdiv (jsRound (fmul (fadd 60000
        (fmul (fmul 60000 (fl 0.02)) (fsub r (fl 0.5)))) 100)) 100 ≤ 60600 :=
  entryPrice_bounds 60000 r 60000 60000 (1288490188829 / 2 ^ 30)
    (644245094415 / 2 ^ 30) (63780264345585 / 2 ^ 30) (65068754534415 / 2 ^ 30)
    (3114270719999 / 2 ^ 19) (3177185280001 / 2 ^ 19) 59400 60600 5940000 6060000
    hr0 hr1 (by norm_num) (by norm_num) (by norm_num)
    (fl_eq_self_of_dyadic 1288490188829 30 (by norm_num) (by norm_num) (by norm_num)) (by norm_num)
    (fl_eq_self_of_dyadic 644245094415 30 (by norm_num) (by norm_num) (by norm_num)) (by norm_num)
    (fl_eq_self_of_dyadic 63780264345585 30 (by norm_num) (by norm_num) (by norm_num)) (by norm_num)
    (fl_eq_self_of_dyadic 65068754534415 30 (by norm_num) (by norm_num) (by norm_num)) (by norm_num)
    (fl_eq_self_of_dyadic 3114270719999 19 (by norm_num) (by norm_num) (by norm_num)) (by norm_num)
    (fl_eq_self_of_dyadic 3177185280001 19 (by norm_num) (by norm_num) (by norm_num)) (by norm_num)
    (by norm_num) (by norm_num)
    (fl_eq_self_of_dyadic 59400 0 (by norm_num) (by norm_num) (by norm_num)) (by norm_num)
    (fl_eq_self_of_dyadic 60600 0 (by norm_num) (by norm_num) (by norm_num)) (by norm_num)

/-- The price computed with the double `1.08` as base, for a draw in [0, 1). -/
theorem entryPrice_eur {r : ℚ} (hr0 : 0 ≤ r) (hr1 : r < 1) :
    1148903751 / 2 ^ 30 ≤ fdiv (jsRound (fmul (fadd (fl 1.08)
        (fmul (fmul (fl 1.08) (fl 0.02)) (fsub r (fl 0.5)))) 100)) 100 ∧
    fdiv (jsRound (fmul (fadd (fl 1.08)
        (fmul (fmul (fl 1.08) (fl 0.02)) (fsub r (fl 0.5)))) 100)) 100 ≤ 1170378589 / 2 ^ 30 :=
  entryPrice_bounds (fl 1.08) r (593736278999 / 2 ^ 39) (1187472557999 / 2 ^ 40) (2899103 / 2 ^ 27)
    (2899103 / 2 ^ 28) (1148044757 / 2 ^ 30) (585618791 / 2 ^ 29)
    (112113745 / 2 ^ 20) (114378671 / 2 ^ 20) (1148903751 / 2 ^ 30) (1170378589 / 2 ^ 30) 107 109
    hr0 hr1 (by norm_num) fl_1_08_bounds.1 fl_1_08_bounds.2
    (fl_eq_self_of_dyadic 2899103 27 (by norm_num) (by norm_num) (by norm_num)) (by norm_num)
    (fl_eq_self_of_dyadic 2899103 28 (by norm_num) (by norm_num) (by norm_num)) (by norm_num)
    (fl_eq_self_of_dyadic 1148044757 30 (by norm_num) (by norm_num) (by norm_num)) (by norm_num)
    (fl_eq_self_of_dyadic 585618791 29 (by norm_num) (by norm_num) (by norm_num)) (by norm_num)
    (fl_eq_self_of_dyadic 112113745 20 (by norm_num) (by norm_num) (by norm_num)) (by norm_num)
    (fl_eq_self_of_dyadic 114378671 20 (by norm_num) (by norm_num) (by norm_num)) (by norm_num)
    (by norm_num) (by norm_num)
    (fl_eq_self_of_dyadic 1148903751 30 (by norm_num) (by norm_num) (by norm_num)) (by norm_num)
    (fl_eq_self_of_dyadic 1170378589 30 (by norm_num) (by norm_num) (by norm_num)) (by norm_num)

/-- The price computed with base 2300, for a draw in [0, 1). -/
theorem entryPrice_gold {r : ℚ} (hr0 : 0 ≤ r) (hr1 : r < 1) :
    2277 ≤ fdiv (jsRound (fmul (fadd 2300
        (fmul (fmul 2300 (fl 0.02)) (fsub r (fl 0.5)))) 100)) 100 ∧
    fdiv (jsRound (fmul (fadd 2300
        (fmul (fmul 2300 (fl 0.02)) (fsub r (fl 0.5)))) 100)) 100 ≤ 2323 :=
  entryPrice_bounds 2300 r 2300 2300 (24696061953 / 2 ^ 29)
    (24696061953 / 2 ^ 30) (2444910133247 / 2 ^ 30) (2494302257153 / 2 ^ 30)
    (238760755199 / 2 ^ 20) (243584204801 / 2 ^ 20) 2277 2323 227700 232300
    hr0 hr1 (by norm_num) (by norm_num) (by norm_num)
    (fl_eq_self_of_dyadic 24696061953 29 (by norm_num) (by norm_num) (by norm_num)) (by norm_num)
    (fl_eq_self_of_dyadic 24696061953 30 (by norm_num) (by norm_num) (by norm_num)) (by norm_num)
    (fl_eq_self_of_dyadic 2444910133247 30 (by norm_num) (by norm_num) (by norm_num)) (by norm_num)
    (fl_eq_self_of_dyadic 2494302257153 30 (by norm_num) (by norm_num) (by norm_num)) (by norm_num)
    (fl_eq_self_of_dyadic 238760755199 20 (by norm_num) (by norm_num) (by norm_num)) (by norm_num)
    (fl_eq_self_of_dyadic 243584204801 20 (by norm_num) (by norm_num) (by norm_num)) (by norm_num)
    (by norm_num) (by norm_num)
    (fl_eq_self_of_dyadic 2277 0 (by norm_num) (by norm_num) (by norm_num)) (by norm_num)
    (fl_eq_self_of_dyadic 2323 0 (by norm_num) (by norm_num) (by norm_num)) (by norm_num)

theorem getRandomEntryPrice_of_base {r1 r2 base : ℚ} {pair : String}
    (hp : getRandomPair r1 = some pair) (hb : bases pair = some base) :
    getRandomEntryPrice r1 r2 = some (fdiv (jsRound (fmul (fadd base
      (fmul (fmul base (fl 0.02)) (fsub r2 (fl 0.5)))) 100)) 100) := by
  unfold getRandomEntryPrice
  rw [hp, Option.some_bind, hb]

theorem bases_btc : bases "BTC/USD" = some 60000 := by simp [bases]

theorem bases_eur : bases "EUR/USD" = some (fl 1.08) := by simp [bases]

theorem bases_gold : bases "GOLD" = some 2300 := by simp [bases]

/-- The entry price is defined for random draws, and lies within one percent
of the base price of the pair drawn. -/
theorem getRandomEntryPrice_cases {r1 r2 : ℚ} (hr1 : isRandomDraw r1) (hr2 : isRandomDraw r2) :
    ∃ price, getRandomEntryPrice r1 r2 = some price ∧
      ((getRandomPair r1 = some "BTC/USD" ∧ 59400 ≤ price ∧ price ≤ 60600) ∨
       (getRandomPair r1 = some "EUR/USD" ∧
          1148903751 / 2 ^ 30 ≤ price ∧ price ≤ 1170378589 / 2 ^ 30) ∨
       (getRandomPair r1 = some "GOLD" ∧ 2277 ≤ price ∧ price ≤ 2323)) := by
  obtain ⟨_, h0, h1⟩ := hr2
  rcases getRandomPair_cases hr1 with hp | hp | hp
  · exact ⟨_, getRandomEntryPrice_of_base hp bases_btc, Or.inl ⟨hp, entryPrice_btc h0 h1⟩⟩
  · exact ⟨_, getRandomEntryPrice_of_base hp bases_eur,
      Or.inr (Or.inl ⟨hp, entryPrice_eur h0 h1⟩)⟩
  · exact ⟨_, getRandomEntryPrice_of_base hp bases_gold,
      Or.inr (Or.inr ⟨hp, entryPrice_gold h0 h1⟩)⟩

theorem getRandomPair_half : getRandomPair (1 / 2) = some "EUR/USD" := by
  have hlen : ((pairs.length : ℕ) : ℚ) = 3 := by norm_num [pairs]
  have hmul : fmul (1 / 2) 3 = 3 / 2 := by
    unfold fmul
    have h : (1 / 2 : ℚ) * 3 = 3 / 2 := by norm_num
    rw [h]
    exact fl_eq_self_of_dyadic 3 1 (by norm_num) (by norm_num) (by norm_num)
  have hfloor : jsFloor (3 / 2) = 1 := by
    unfold jsFloor
    rw [Int.floor_eq_iff]
    constructor <;> norm_num
  unfold getRandomPair
  rw [hlen, hmul, hfloor]
  simp [pairs]

/-! ### `generateFakeTrade` -/

/-- The percentage drawn by `generateFakeTrade` lies between the double
`0.005` and the double just below the double `0.035`. -/
theorem fakeTrade_profitPercent_bounds {r : ℚ} (h0 : 0 ≤ r) (h1 : r < 1) :
    fl 0.005 ≤ fadd (fl 0.005) (fmul r (fl 0.03)) ∧
    fadd (fl 0.005) (fmul r (fl 0.03)) ≤ 5044031582654955 / 2 ^ 57 := by
  have h03 : (0 : ℚ) ≤ fl 0.03 := fl_nonneg (by norm_num)
  have hm0 : 0 ≤ fmul r (fl 0.03) := fl_nonneg (mul_nonneg h0 h03)
  have hm1 : fmul r (fl 0.03) ≤ fl 0.03 := by
    have := fl_mono (show r * fl 0.03 ≤ fl 0.03 by nlinarith)
    rwa [fl_idem] at this
  constructor
  · have := fl_mono (show fl 0.005 ≤ fl 0.005 + fmul r (fl 0.03) by linarith)
    rwa [fl_idem] at this
  · have := fl_mono (show fl 0.005 + fmul r (fl 0.03) ≤ fl 0.005 + fl 0.03 by linarith)
    have h2 := fadd_0_005_0_03
    unfold fadd at h2 ⊢
    rwa [h2] at this

/-- Multiplying a price of at least 1 by one plus a percentage of at least
half a percent gives a strictly larger double. -/
theorem lt_fmul_one_add {entry pp : ℚ} (he : 1 ≤ entry) (hpp : 0.005 ≤ pp) :
    entry < fmul entry (fadd 1 pp) := by
  have hq : (257 / 2 ^ 8 : ℚ) ≤ fadd 1 pp :=
    le_fl_of_le 257 8 (by norm_num) (by norm_num) (by norm_num)
      (by norm_num at hpp ⊢; linarith)
  have hprod : entry * (257 / 2 ^ 8) ≤ entry * fadd 1 pp :=
    mul_le_mul_of_nonneg_left hq (by linarith)
  have hnormal : (2 : ℚ) ^ (-1022 : ℤ) ≤ entry * fadd 1 pp := by
    have h1 : (2 : ℚ) ^ (-1022 : ℤ) ≤ 1 := zpow_le_one_of_nonpos₀ (by norm_num) (by norm_num)
    have h2 : (1 : ℚ) ≤ entry * (257 / 2 ^ 8) := by
      have : entry * 1 ≤ entry * (257 / 2 ^ 8) :=
        mul_le_mul_of_nonneg_left (by norm_num) (by linarith)
      linarith
    linarith
  have hfl := mul_le_fl hnormal
  have hscale : entry * (257 / 2 ^ 8) * (1 - 1 / 2 ^ 53)
      ≤ entry * fadd 1 pp * (1 - 1 / 2 ^ 53) :=
    mul_le_mul_of_nonneg_right hprod (by norm_num)
  have hgain : entry < entry * (257 / 2 ^ 8) * (1 - 1 / 2 ^ 53) := by
    have hk : (1 : ℚ) < 257 / 2 ^ 8 * (1 - 1 / 2 ^ 53) := by norm_num
    have : entry * 1 < entry * (257 / 2 ^ 8 * (1 - 1 / 2 ^ 53)) :=
      mul_lt_mul_of_pos_left hk (by linarith)
    linarith
  unfold fmul
  linarith

/-- C8: for random draws, `generateFakeTrade` yields a trade whose exit price
is strictly greater than its entry price and whose profit percentage lies in
[0.005, 0.035], that is in [0.5, 3.5] as the percent number displayed. -/
theorem generateFakeTrade_wins (r1 r2 r3 r4 : ℚ) (h1 : isRandomDraw r1)
    (h2 : isRandomDraw r2) (h3 : isRandomDraw r3) (h4 : isRandomDraw r4) :
    ∃ t, generateFakeTrade r1 r2 r3 r4 = some t ∧ t.entry < t.exit ∧
      0.005 ≤ t.profitPercent ∧ t.profitPercent ≤ 0.035 ∧
      0.5 ≤ t.percent ∧ t.percent ≤ 3.5 := by
  obtain ⟨pair, hpair⟩ : ∃ pair, getRandomPair r1 = some pair := by
    rcases getRandomPair_cases h1 with h | h | h <;> exact ⟨_, h⟩
  obtain ⟨entry, hentry, hcases⟩ := getRandomEntryPrice_cases h2 h3
  have hone : 1 ≤ entry := by
    rcases hcases with ⟨_, h, _⟩ | ⟨_, h, _⟩ | ⟨_, h, _⟩
    · linarith
    · refine le_trans ?_ h
      norm_num
    · linarith
  obtain ⟨hlo, hhi⟩ := fakeTrade_profitPercent_bounds h4.2.1 h4.2.2
  have hpplo : (0.005 : ℚ) ≤ fadd (fl 0.005) (fmul r4 (fl 0.03)) := le_trans le_fl_0_005 hlo
  have hpphi : fadd (fl 0.005) (fmul r4 (fl 0.03)) ≤ (0.035 : ℚ) := by
    refine le_trans hhi ?_
    norm_num
  have hexit := lt_fmul_one_add hone hpplo
  have hpercentlo : (0.5 : ℚ) ≤ fmul (fadd (fl 0.005) (fmul r4 (fl 0.03))) 100 :=
    le_fl_of_le 1 1 (by norm_num) (by norm_num) (by norm_num)
      (by norm_num at hpplo ⊢; linarith)
  have hpercenthi : fmul (fadd (fl 0.005) (fmul r4 (fl 0.03))) 100 ≤ (3.5 : ℚ) :=
    fl_le_of_le 7 1 (by norm_num) (by norm_num) (by norm_num)
      (by norm_num at hpphi ⊢; linarith)
  have hrun : generateFakeTrade r1 r2 r3 r4 = some
      { pair := pair, entry := entry,
        exit := fmul entry (fadd 1 (fadd (fl 0.005) (fmul r4 (fl 0.03)))),
        profit := fsub (fmul entry (fadd 1 (fadd (fl 0.005) (fmul r4 (fl 0.03))))) entry,
        profitPercent := fadd (fl 0.005) (fmul r4 (fl 0.03)),
        percent := fmul (fadd (fl 0.005) (fmul r4 (fl 0.03))) 100,
        status := "completed", result := "win" } := by
    unfold generateFakeTrade
    rw [hpair, hentry]
  exact ⟨_, hrun, hexit, hpplo, hpphi, hpercentlo, hpercenthi⟩

/-- C8 at work: the four draws 0, one half, 0 and one half. -/
theorem generateFakeTrade_wins_witness :
    isRandomDraw 0 ∧ isRandomDraw (1 / 2) ∧
    ((generateFakeTrade 0 (1 / 2) 0 (1 / 2)).map fun t =>
        decide (t.entry < t.exit ∧ 0.005 ≤ t.profitPercent ∧ t.profitPercent ≤ 0.035))
      = some true := by
  refine ⟨isRandomDraw_zero, isRandomDraw_half, ?_⟩
  obtain ⟨t, ht, h1, h2, h3, _⟩ := generateFakeTrade_wins 0 (1 / 2) 0 (1 / 2)
    isRandomDraw_zero isRandomDraw_half isRandomDraw_zero isRandomDraw_half
  rw [ht]
  simp [h1, h2, h3]

/-- C9: for random draws, the price `getRandomEntryPrice` computes, rounded
to two decimals, lies within [base * 0.99, base * 1.01] of the base price of
the pair it drew: 60000 for BTC/USD, 1.08 for EUR/USD, 2300 for GOLD. -/
theorem getRandomEntryPrice_within_one_percent (r1 r2 : ℚ) (hr1 : isRandomDraw r1)
    (hr2 : isRandomDraw r2) :
    ∃ pair price, getRandomPair r1 = some pair ∧ getRandomEntryPrice r1 r2 = some price ∧
      (pair = "BTC/USD" ∨ pair = "EUR/USD" ∨ pair = "GOLD") ∧
      (pair = "BTC/USD" → 60000 * 0.99 ≤ price ∧ price ≤ 60000 * 1.01) ∧
      (pair = "EUR/USD" → 1.08 * 0.99 ≤ price ∧ price ≤ 1.08 * 1.01) ∧
      (pair = "GOLD" → 2300 * 0.99 ≤ price ∧ price ≤ 2300 * 1.01) := by
  obtain ⟨price, hprice, hcases⟩ := getRandomEntryPrice_cases hr1 hr2
  rcases hcases with ⟨hp, hlo, hhi⟩ | ⟨hp, hlo, hhi⟩ | ⟨hp, hlo, hhi⟩
  · refine ⟨"BTC/USD", price, hp, hprice, Or.inl rfl, fun _ => ?_, fun h => ?_, fun h => ?_⟩
    · constructor
      · refine le_trans ?_ hlo
        norm_num
      · refine le_trans hhi ?_
        norm_num
    · exact absurd h (by decide)
    · exact absurd h (by decide)
  · refine ⟨"EUR/USD", price, hp, hprice, Or.inr (Or.inl rfl), fun h => ?_, fun _ => ?_,
      fun h => ?_⟩
    · exact absurd h (by decide)
    · constructor
      · refine le_trans ?_ hlo
        norm_num
      · refine le_trans hhi ?_
        norm_num
    · exact absurd h (by decide)
  · refine ⟨"GOLD", price, hp, hprice, Or.inr (Or.inr rfl), fun h => ?_, fun h => ?_,
      fun _ => ?_⟩
    · exact absurd h (by decide)
    · exact absurd h (by decide)
    · constructor
      · refine le_trans ?_ hlo
        norm_num
      · refine le_trans hhi ?_
        norm_num

/-- C9 at work: the draw one half selects EUR/USD, and with the variation
draw 0 the price lies in [1.08 * 0.99, 1.08 * 1.01]. -/
theorem getRandomEntryPrice_within_one_percent_witness :
    isRandomDraw (1 / 2) ∧ isRandomDraw 0 ∧ getRandomPair (1 / 2) = some "EUR/USD" ∧
    ((getRandomEntryPrice (1 / 2) 0).map fun price =>
        decide (1.08 * 0.99 ≤ price ∧ price ≤ 1.08 * 1.01)) = some true := by
  refine ⟨isRandomDraw_half, isRandomDraw_zero, getRandomPair_half, ?_⟩
  obtain ⟨pair, price, hp, hprice, _, _, heur, _⟩ :=
    getRandomEntryPrice_within_one_percent (1 / 2) 0 isRandomDraw_half isRandomDraw_zero
  rw [getRandomPair_half] at hp
  have hpair : pair = "EUR/USD" := (Option.some.inj hp).symm
  rw [hprice]
  simp [heur hpair]

/-- C10: for a non-negative balance and a random draw, `calculateProfit`
returns the integer `Math.round(balance * p)` for a double `p` with
`0.005 ≤ p ≤ 0.035`; it lies between `Math.round(balance * 0.005)` and
`Math.round(balance * 0.035)`, and for the balance 100000 between 500 and
3500. Products are the rounded products of JavaScript. -/
theorem calculateProfit_range (balance r : ℚ) (hb : 0 ≤ balance) (hr : isRandomDraw r) :
    (∃ p : ℚ, fl p = p ∧ 0.005 ≤ p ∧ p ≤ 0.035 ∧
      calculateProfit balance r = jsRound (fmul balance p)) ∧
    jsRound (fmul balance (fl 0.005)) ≤ calculateProfit balance r ∧
    calculateProfit balance r ≤ jsRound (fmul balance (fl 0.035)) ∧
    500 ≤ calculateProfit 100000 r ∧ calculateProfit 100000 r ≤ 3500 := by
  obtain ⟨hlo, hhi⟩ := profitPercentage_bounds hr
  set p := fadd (fl 0.005) (fmul r (fsub (fl 0.035) (fl 0.005))) with hp
  have hrun : ∀ b : ℚ, calculateProfit b r = jsRound (fmul b p) := fun _ => rfl
  have hplo : (0.005 : ℚ) ≤ p := le_trans le_fl_0_005 hlo
  have hphi : p ≤ (0.035 : ℚ) := by
    refine le_trans hhi ?_
    norm_num
  have hphi2 : p ≤ fl 0.035 := by
    rw [fl_0_035]
    refine le_trans hhi ?_
    norm_num
  refine ⟨⟨p, fl_idem _, hplo, hphi, hrun balance⟩, ?_, ?_, ?_, ?_⟩
  · rw [hrun]
    exact jsRound_mono (fl_mono (mul_le_mul_of_nonneg_left hlo hb))
  · rw [hrun]
    exact jsRound_mono (fl_mono (mul_le_mul_of_nonneg_left hphi2 hb))
  · rw [hrun]
    have h1 : (500 : ℚ) ≤ 100000 * p := by linarith
    have h2 : (500 : ℚ) ≤ fmul 100000 p :=
      le_fl_of_le 500 0 (by norm_num) (by norm_num) (by norm_num) h1
    unfold jsRound
    exact Int.le_floor.mpr (by push_cast; linarith)
  · rw [hrun]
    have h1 : 100000 * p ≤ (3500 : ℚ) := by linarith
    have h2 : fmul 100000 p ≤ (3500 : ℚ) :=
      fl_le_of_le 3500 0 (by norm_num) (by norm_num) (by norm_num) h1
    unfold jsRound
    have : ⌊fmul 100000 p + 1 / 2⌋ < 3501 := Int.floor_lt.mpr (by push_cast; linarith)
    omega

/-- C10 at work: the balance 100000 with the draw one half. -/
theorem calculateProfit_range_witness :
    500 ≤ calculateProfit 100000 (1 / 2) ∧ calculateProfit 100000 (1 / 2) ≤ 3500 :=
  (calculateProfit_range 100000 (1 / 2) (by norm_num) isRandomDraw_half).2.2.2

end QuantumAI
